import Mathlib

/-!
# Buffers tutorial (`Buffers/Buffers/Main.cpp`): loader, shader unit and frame protocol

The development embeds `Main.cpp` shallowly.

* `std::ifstream` is a list of remaining characters plus the `eofbit` and
  `failbit` flags; formatted extraction (`operator>>`) follows the C++11
  rules: the sentry, whitespace skipping, `num_get` accumulation and the
  value stored on failure.
* `float` values are kept abstract: the environment supplies the conversion
  of an accumulated field (`strtof`), so every statement holds for whatever
  rounding the platform performs.
* The OpenGL context is an explicit state record; every `gl*` call of the
  source is a function on it. Driver decisions (compile status, info log,
  link status, uniform location) come from the environment.
* The subtraction `triangleIndex-1` is 32-bit: it wraps at the bounds of
  `int`, as on the two's-complement targets of the source. Counts of loaded
  values are natural numbers (a file would need over 7e8 faces to exceed
  `int`).
* The copy-out of `loadDataFromFile` takes `&positionData[0]` and
  `&triangleData[0]`; on an empty vector that subscript is undefined, which
  the returned mesh records in `subscriptsInRange`.
-/

namespace Buffers

/-! ## Characters and fields -/

/-- Whitespace of the classic "C" locale, as `std::isspace` reports it. -/
def isspace (c : Char) : Bool :=
  c = ' ' || c = '\t' || c = '\n' || c = '\x0b' || c = '\x0c' || c = '\r'

/-- Decimal digits. -/
def isdigit (c : Char) : Bool := decide (48 ≤ c.toNat) && decide (c.toNat ≤ 57)

/-- Sign characters accepted in front of a number. -/
def issign (c : Char) : Bool := c = '+' || c = '-'

/-- Accumulation of a numeric field (`num_get`, stage 2): characters are taken
one at a time while the automaton `step` allows the next one. The result is
the accumulated field and the characters left in the stream. -/
def lexRun {σ : Type} (step : σ → Char → Option σ) : σ → List Char → List Char × List Char
  | _, [] => ([], [])
  | st, c :: cs =>
    match step st c with
    | none => ([], c :: cs)
    | some st' => (c :: (lexRun step st' cs).1, (lexRun step st' cs).2)

/-- States of the integer field automaton. -/
inductive IntLex where
  | start
  | signed
  | digits
deriving DecidableEq, Repr

/-- Integer field: an optional sign followed by decimal digits. -/
def intStep : IntLex → Char → Option IntLex
  | .start, c => if issign c then some .signed else if isdigit c then some .digits else none
  | .signed, c => if isdigit c then some .digits else none
  | .digits, c => if isdigit c then some .digits else none

/-- State of the floating-point field automaton: what has been seen so far. -/
structure FloatLex where
  /-- a sign may still come next (start of the mantissa or of the exponent) -/
  signOk : Bool
  /-- a mantissa digit has been accumulated -/
  mantissa : Bool
  /-- the decimal point has been accumulated -/
  point : Bool
  /-- the exponent marker has been accumulated -/
  sci : Bool
deriving DecidableEq, Repr

/-- Start state of the floating-point automaton. -/
def FloatLex.start : FloatLex := ⟨true, false, false, false⟩

/-- Floating-point field: `[sign] digits [. digits] [(e|E) [sign] digits]`. -/
def floatStep (st : FloatLex) (c : Char) : Option FloatLex :=
  if isdigit c then
    some { st with signOk := false, mantissa := st.mantissa || !st.sci }
  else if issign c then
    if st.signOk then some { st with signOk := false } else none
  else if c = '.' then
    if !st.point && !st.sci then some { st with signOk := false, point := true } else none
  else if c = 'e' || c = 'E' then
    if st.mantissa && !st.sci then some { st with signOk := true, sci := true } else none
  else none

/-- Value of a string of decimal digits. -/
def decValue (ds : List Char) : Nat := ds.foldl (fun a c => 10 * a + (c.toNat - 48)) 0

/-- The integer a field of sign and digits denotes. -/
def intValue (field : List Char) : Int :=
  if field.head? = some '-' then -(decValue (field.filter isdigit) : Int)
  else (decValue (field.filter isdigit) : Int)

/-- Largest value of a 32-bit `int`. -/
def INT_MAX : Int := 2147483647

/-- Smallest value of a 32-bit `int`. -/
def INT_MIN : Int := -2147483648

/-- Arithmetic of a 32-bit `int`: the result wraps into `[INT_MIN, INT_MAX]`. -/
def wrapInt32 (x : Int) : Int := (x + 2147483648) % 4294967296 - 2147483648

/-- Conversion of an accumulated integer field (`num_get`, stage 3, for `int`):
the value stored and whether `failbit` is raised. A field without digits stores
0; a value outside the range of `int` stores the nearest bound. -/
def convInt (field : List Char) : Int × Bool :=
  if field.filter isdigit = [] then (0, true)
  else if intValue field > INT_MAX then (INT_MAX, true)
  else if intValue field < INT_MIN then (INT_MIN, true)
  else (intValue field, false)

/-! ## Input file stream -/

/-- An input file stream: the characters not yet read and two state flags. -/
structure IfStream where
  rest : List Char
  eofbit : Bool
  failbit : Bool
deriving DecidableEq, Repr

namespace IfStream

/-- Opening a file: `none` is a file that cannot be opened, which leaves the
stream with `failbit` set. -/
def openFile : Option (List Char) → IfStream
  | none => ⟨[], false, true⟩
  | some content => ⟨content, false, false⟩

/-- Member `good()`. -/
def good (s : IfStream) : Bool := !s.eofbit && !s.failbit

/-- Member `eof()`. -/
def eof (s : IfStream) : Bool := s.eofbit

/-- The sentry of a formatted input function: a stream that is not good gets
`failbit`; otherwise leading whitespace is skipped, and reaching the end of
the file while skipping sets `eofbit` and `failbit`. -/
def sentry (s : IfStream) : Bool × IfStream :=
  if s.good then
    match s.rest.dropWhile isspace with
    | [] => (false, ⟨[], true, true⟩)
    | c :: r => (true, ⟨c :: r, false, false⟩)
  else (false, { s with failbit := true })

/-- Extraction `file >> str` into a fresh `std::string`: characters up to the
next whitespace or the end of the file. -/
def extractString (s : IfStream) : List Char × IfStream :=
  match s.sentry with
  | (false, s') => ([], s')
  | (true, s') =>
    let tok := s'.rest.takeWhile (fun c => !isspace c)
    let r := s'.rest.dropWhile (fun c => !isspace c)
    (tok, ⟨r, r.isEmpty, tok.isEmpty⟩)

/-- Extraction `file >> n` for `int n`, where `old` is the value of `n` before
the call: a failed sentry leaves `n` unchanged. -/
def extractInt (s : IfStream) (old : Int) : Int × IfStream :=
  match s.sentry with
  | (false, s') => (old, s')
  | (true, s') =>
    let lexed := lexRun intStep IntLex.start s'.rest
    let conv := convInt lexed.1
    (conv.1, ⟨lexed.2, lexed.2.isEmpty, conv.2⟩)

/-- Extraction `file >> x` for `float x`, where `old` is the value of `x`
before the call and `strtof` converts an accumulated field to the value stored
and the `failbit` verdict. -/
def extractFloat {F : Type} (strtof : List Char → F × Bool) (s : IfStream) (old : F) :
    F × IfStream :=
  match s.sentry with
  | (false, s') => (old, s')
  | (true, s') =>
    let lexed := lexRun floatStep FloatLex.start s'.rest
    let conv := strtof lexed.1
    (conv.1, ⟨lexed.2, lexed.2.isEmpty, conv.2⟩)

end IfStream

/-! ## Mesh loader -/

/-- What the loader needs from the platform. -/
structure LoaderEnv (F : Type) where
  /-- conversion of a floating-point field: value stored, and `failbit` -/
  strtof : List Char → F × Bool
  /-- content of the uninitialised local `newValue`, by number of floats pushed -/
  uninitFloat : Nat → F
  /-- content of the uninitialised local `triangleIndex`, by number of ints pushed -/
  uninitInt : Nat → Int

/-- Locals of `loadDataFromFile` while the loop runs. -/
structure LoadState (F : Type) where
  file : IfStream
  positionData : List F
  triangleData : List Int

/-- One iteration of the `while` body of `loadDataFromFile`. -/
def loadStep {F : Type} (env : LoaderEnv F) (st : LoadState F) : LoadState F :=
  let r0 := st.file.extractString
  let openingString := r0.1
  if openingString = ['v'] then
    let newValue := env.uninitFloat st.positionData.length
    let r1 := r0.2.extractFloat env.strtof newValue
    let r2 := r1.2.extractFloat env.strtof r1.1
    let r3 := r2.2.extractFloat env.strtof r2.1
    { file := r3.2
      positionData := st.positionData ++ [r1.1, r2.1, r3.1]
      triangleData := st.triangleData }
  else if openingString = ['f'] then
    let triangleIndex := env.uninitInt st.triangleData.length
    let r1 := r0.2.extractInt triangleIndex
    let r2 := r1.2.extractInt r1.1
    let r3 := r2.2.extractInt r2.1
    { file := r3.2
      positionData := st.positionData
      triangleData := st.triangleData ++
        [wrapInt32 (r1.1 - 1), wrapInt32 (r2.1 - 1), wrapInt32 (r3.1 - 1)] }
  else
    { st with file := r0.2 }

/-- The loop `while( !file.eof() && file.good() )`, bounded by `fuel`
iterations; `none` means the bound was hit before the loop condition failed. -/
def loadLoop {F : Type} (env : LoaderEnv F) : Nat → LoadState F → Option (LoadState F)
  | 0, st => if !st.file.eof && st.file.good then none else some st
  | fuel + 1, st =>
    if !st.file.eof && st.file.good then loadLoop env fuel (loadStep env st) else some st

/-- The four output parameters of `loadDataFromFile`, and whether the copy-out
stayed within defined behaviour. -/
structure Mesh (F : Type) where
  positionData : List F
  nPositionsLoaded : Nat
  triangleData : List Int
  nTrianglesLoaded : Nat
  /-- both `&positionData[0]` and `&triangleData[0]` were taken of a non-empty
  vector; when this is `false` the subscript was out of range, which is
  undefined in C++ and stops the program under a checked standard library, and
  the other fields are what results where the library does not check -/
  subscriptsInRange : Bool

/-- The end of `loadDataFromFile`: the counts are the array sizes divided by 3,
and each array is copied out whole by `memcpy` from the address of its element
0, an element that exists only when the vector is not empty. -/
def LoadState.outputs {F : Type} (st : LoadState F) : Mesh F where
  positionData := st.positionData
  nPositionsLoaded := st.positionData.length / 3
  triangleData := st.triangleData
  nTrianglesLoaded := st.triangleData.length / 3
  subscriptsInRange := !st.positionData.isEmpty && !st.triangleData.isEmpty

/-- Function `loadDataFromFile`; `disk` is the content of `../tut_object.obj`, or
`none` when that file cannot be opened. Every iteration that does not end the
loop consumes a character, so one more iteration than the file has characters
is enough. -/
def loadDataFromFile {F : Type} (env : LoaderEnv F) (disk : Option (List Char)) :
    Option (Mesh F) :=
  let file := IfStream.openFile disk
  (loadLoop env (file.rest.length + 1) ⟨file, [], []⟩).map LoadState.outputs

/-- Element `i` of a flat array read three values at a time. -/
def triple {α : Type} (xs : List α) (i : Nat) : Option (α × α × α) :=
  match xs.drop (3 * i) with
  | a :: b :: c :: _ => some (a, b, c)
  | _ => none

/-- The first `n` triples of a flat array. -/
def triples {α : Type} (xs : List α) (n : Nat) : List (α × α × α) :=
  (List.range n).filterMap (triple xs)

/-- Positions of a mesh, as 3-float tuples. -/
def Mesh.positions {F : Type} (m : Mesh F) : List (F × F × F) :=
  triples m.positionData m.nPositionsLoaded

/-- A text position where a token may end: the end of the text or whitespace. -/
def atBoundary : List Char → Bool
  | [] => true
  | c :: _ => isspace c

/-- Reads the token `t` off the front of `text`: leading whitespace, then
exactly the characters of `t` (non-empty, free of whitespace), then a token
boundary. The result is the text after the token. -/
def eatToken (t text : List Char) : Option (List Char) :=
  let r := text.dropWhile isspace
  if t ≠ [] ∧ t.all (fun c => !isspace c) = true ∧ r.take t.length = t ∧
      atBoundary (r.drop t.length) = true then
    some (r.drop t.length)
  else none

/-- Reads a sequence of tokens off the front of a text. -/
def eatTokens : List (List Char) → List Char → Option (List Char)
  | [], text => some text
  | t :: ts, text => (eatToken t text).bind (eatTokens ts)

/-- The text is a whitespace-token stream whose tokens are exactly `ts`. -/
def tokenized (ts : List (List Char)) (text : List Char) : Bool :=
  match eatTokens ts text with
  | some r => r.all isspace
  | none => false

/-- A token the `float` extraction takes whole and converts without failure. -/
def parseableFloat {F : Type} (env : LoaderEnv F) (t : List Char) : Bool :=
  (lexRun floatStep FloatLex.start t).2.isEmpty && !(env.strtof t).2

/-- A token the `int` extraction takes whole and converts without failure. -/
def parseableInt (t : List Char) : Bool :=
  (lexRun intStep IntLex.start t).2.isEmpty && !(convInt t).2

/-- The entries of a model file, by their tokens: a `v` token with its three
numbers, an `f` token with its three indices, or any other single token. -/
inductive Entry where
  | vertex (x y z : List Char)
  | face (i j k : List Char)
  | other (t : List Char)
deriving DecidableEq, Repr

/-- Tokens of an entry, in file order. -/
def Entry.tokens : Entry → List (List Char)
  | .vertex x y z => [['v'], x, y, z]
  | .face i j k => [['f'], i, j, k]
  | .other t => [t]

/-- The numbers of an entry are parseable, and a token outside a `v` or `f`
entry is neither `v` nor `f`. -/
def Entry.ok {F : Type} (env : LoaderEnv F) : Entry → Bool
  | .vertex x y z => parseableFloat env x && parseableFloat env y && parseableFloat env z
  | .face i j k => parseableInt i && parseableInt j && parseableInt k
  | .other t => decide (t ≠ ['v']) && decide (t ≠ ['f'])

/-- All tokens of a list of entries. -/
def entryTokens (es : List Entry) : List (List Char) := es.flatMap Entry.tokens

/-- A well-formed model file with entries `es`. -/
def wellFormed {F : Type} (env : LoaderEnv F) (es : List Entry) (text : List Char) : Bool :=
  tokenized (entryTokens es) text && es.all (Entry.ok env)

/-- Flat float array the `v` entries give. -/
def vertexData {F : Type} (env : LoaderEnv F) : List Entry → List F
  | [] => []
  | .vertex x y z :: es =>
    (env.strtof x).1 :: (env.strtof y).1 :: (env.strtof z).1 :: vertexData env es
  | _ :: es => vertexData env es

/-- Flat index array the `f` entries give: each index written, minus 1 in the
32-bit arithmetic of the loader. -/
def faceData : List Entry → List Int
  | [] => []
  | .face i j k :: es =>
    wrapInt32 (intValue i - 1) :: wrapInt32 (intValue j - 1) :: wrapInt32 (intValue k - 1) ::
      faceData es
  | _ :: es => faceData es

/-- Number of `v` entries. -/
def vertexCount : List Entry → Nat
  | [] => 0
  | .vertex _ _ _ :: es => vertexCount es + 1
  | _ :: es => vertexCount es

/-- Number of `f` entries. -/
def faceCount : List Entry → Nat
  | [] => 0
  | .face _ _ _ :: es => faceCount es + 1
  | _ :: es => faceCount es

/-- A text that is empty or ends with a newline: what follows starts a line. -/
def endsLine (text : List Char) : Bool :=
  match text.getLast? with
  | none => true
  | some c => c = '\n'

/-- One line of text: characters other than the newline, then the newline. -/
def isLine (text : List Char) : Bool :=
  match text.reverse with
  | [] => false
  | c :: body => c = '\n' && body.all (fun d => d ≠ '\n')

/-- The first token of a text, if it has one. -/
def leadingToken (text : List Char) : List Char :=
  (text.dropWhile isspace).takeWhile (fun c => !isspace c)

/-! ## OpenGL context -/

/-- A 4-byte word in the data store of a buffer object. -/
inductive Word (F : Type) where
  | float (x : F)
  | int (n : Int)

/-- Internal formats of the two buffer textures. -/
inductive TexFormat where
  | RGB32F
  | R32I
deriving DecidableEq, Repr

/-- Bytes of one texel. -/
def TexFormat.bytes : TexFormat → Nat
  | .RGB32F => 12
  | .R32I => 4

/-- Shader stages. -/
inductive ShaderType where
  | GL_VERTEX_SHADER
  | GL_FRAGMENT_SHADER
deriving DecidableEq, Repr

/-- A shader object. -/
structure ShaderObject where
  type : ShaderType
  source : List Char
  compileStatus : Bool
  infoLog : List Char
deriving DecidableEq, Repr

/-- A program object. -/
structure ProgramObject where
  attached : List Nat
  linkStatus : Bool
  mvpLocation : Int
deriving DecidableEq, Repr

/-- Decisions of the GPU driver. -/
structure Driver where
  /-- whether a source compiles for a stage -/
  compiles : ShaderType → List Char → Bool
  /-- the information log of a compilation -/
  compileLog : ShaderType → List Char → List Char
  /-- whether the attached shader objects link -/
  links : List ShaderObject → Bool
  /-- location of a uniform of a linked program, -1 when it has none -/
  uniformLocation : List ShaderObject → List Char → Int

/-- State of the OpenGL context, as far as the program touches it. -/
structure GLState (F M : Type) where
  nextBuffer : Nat
  nextTexture : Nat
  nextObject : Nat
  shaders : Nat → Option ShaderObject
  programs : Nat → Option ProgramObject
  currentProgram : Nat
  uniformMatrix : Nat → Int → Option M
  textureBufferBinding : Nat
  bufferSize : Nat → Nat
  bufferData : Nat → List (Word F)
  activeTexture : Nat
  boundTexture : Nat → Nat
  texBuffer : Nat → Option (TexFormat × Nat)
  depthTest : Bool
  clears : Nat

/-- A fresh context: no objects, nothing bound, texture unit 0 active. -/
def GLState.initial (F M : Type) : GLState F M where
  nextBuffer := 1
  nextTexture := 1
  nextObject := 1
  shaders := fun _ => none
  programs := fun _ => none
  currentProgram := 0
  uniformMatrix := fun _ _ => none
  textureBufferBinding := 0
  bufferSize := fun _ => 0
  bufferData := fun _ => []
  activeTexture := 0
  boundTexture := fun _ => 0
  texBuffer := fun _ => none
  depthTest := false
  clears := 0

/-- One `glDrawArrays` call, with the context it was issued in. -/
structure DrawCall (F M : Type) where
  mode : Nat
  first : Int
  count : Int
  ctx : GLState F M

/-- Primitive mode `GL_TRIANGLES`. -/
def GL_TRIANGLES : Nat := 4

namespace GLState

variable {F M : Type}

/-- Call `glGenBuffers( 2, buffers )`: two unused names. -/
def glGenBuffers2 (gl : GLState F M) : (Nat × Nat) × GLState F M :=
  ((gl.nextBuffer, gl.nextBuffer + 1), { gl with nextBuffer := gl.nextBuffer + 2 })

/-- Call `glGenTextures( 2, textures )`: two unused names. -/
def glGenTextures2 (gl : GLState F M) : (Nat × Nat) × GLState F M :=
  ((gl.nextTexture, gl.nextTexture + 1), { gl with nextTexture := gl.nextTexture + 2 })

/-- Call `glBindBuffer( GL_TEXTURE_BUFFER, buffer )`. -/
def glBindBuffer (buffer : Nat) (gl : GLState F M) : GLState F M :=
  { gl with textureBufferBinding := buffer }

/-- Call `glBufferData( GL_TEXTURE_BUFFER, size, data, GL_STATIC_DRAW )`: the
buffer bound to the target gets a data store of `size` bytes, filled from
`data`; with no buffer bound the call is an error and changes nothing. -/
def glBufferData (size : Nat) (data : List (Word F)) (gl : GLState F M) : GLState F M :=
  if gl.textureBufferBinding = 0 then gl
  else
    { gl with
      bufferSize := fun b => if b = gl.textureBufferBinding then size else gl.bufferSize b
      bufferData := fun b =>
        if b = gl.textureBufferBinding then data.take (size / 4) else gl.bufferData b }

/-- Call `glActiveTexture( GL_TEXTURE0 + unit )`. -/
def glActiveTexture (unit : Nat) (gl : GLState F M) : GLState F M :=
  { gl with activeTexture := unit }

/-- Call `glBindTexture( GL_TEXTURE_BUFFER, texture )`: binds on the active unit. -/
def glBindTexture (texture : Nat) (gl : GLState F M) : GLState F M :=
  { gl with boundTexture := fun u => if u = gl.activeTexture then texture else gl.boundTexture u }

/-- Call `glTexBuffer( GL_TEXTURE_BUFFER, format, buffer )`: attaches the data
store of `buffer` to the texture bound on the active unit. -/
def glTexBuffer (format : TexFormat) (buffer : Nat) (gl : GLState F M) : GLState F M :=
  { gl with
    texBuffer := fun t =>
      if t = gl.boundTexture gl.activeTexture then some (format, buffer) else gl.texBuffer t }

/-- Number of texels a buffer texture exposes: the size of the attached data
store divided by the size of a texel. -/
def texelCount (gl : GLState F M) (texture : Nat) : Nat :=
  match gl.texBuffer texture with
  | some (format, buffer) => gl.bufferSize buffer / format.bytes
  | none => 0

/-- Call `glCreateShader(shaderType)`: a new shader object under an unused name. -/
def glCreateShader (shaderType : ShaderType) (gl : GLState F M) : Nat × GLState F M :=
  (gl.nextObject,
    { gl with
      nextObject := gl.nextObject + 1
      shaders := fun n =>
        if n = gl.nextObject then some ⟨shaderType, [], false, []⟩ else gl.shaders n })

/-- Call `glShaderSource(shader, 1, &ptr, &size)`. -/
def glShaderSource (shader : Nat) (source : List Char) (gl : GLState F M) : GLState F M :=
  match gl.shaders shader with
  | none => gl
  | some obj =>
    { gl with
      shaders := fun n => if n = shader then some { obj with source := source } else gl.shaders n }

/-- Call `glCompileShader(shader)`: the driver decides status and log. -/
def glCompileShader (drv : Driver) (shader : Nat) (gl : GLState F M) : GLState F M :=
  match gl.shaders shader with
  | none => gl
  | some obj =>
    { gl with
      shaders := fun n =>
        if n = shader then
          some { obj with
            compileStatus := drv.compiles obj.type obj.source
            infoLog := drv.compileLog obj.type obj.source }
        else gl.shaders n }

/-- Call `glGetShaderiv(shader, GL_COMPILE_STATUS, &isCompiled)`, where `old`
is the value of `isCompiled` before the call. -/
def glGetShaderiv (shader : Nat) (old : Bool) (gl : GLState F M) : Bool :=
  match gl.shaders shader with
  | none => old
  | some obj => obj.compileStatus

/-- Call `glGetShaderInfoLog(shader, 1024, NULL, infolog)`: at most 1023
characters of the log. -/
def glGetShaderInfoLog (shader : Nat) (gl : GLState F M) : List Char :=
  match gl.shaders shader with
  | none => []
  | some obj => obj.infoLog.take 1023

/-- Call `glDeleteShader(shader)`. -/
def glDeleteShader (shader : Nat) (gl : GLState F M) : GLState F M :=
  { gl with shaders := fun n => if n = shader then none else gl.shaders n }

/-- Call `glCreateProgram()`. -/
def glCreateProgram (gl : GLState F M) : Nat × GLState F M :=
  (gl.nextObject,
    { gl with
      nextObject := gl.nextObject + 1
      programs := fun n => if n = gl.nextObject then some ⟨[], false, -1⟩ else gl.programs n })

/-- Call `glAttachShader(program, shader)`: an error, without effect, when
either name is not an object. -/
def glAttachShader (program shader : Nat) (gl : GLState F M) : GLState F M :=
  match gl.programs program, gl.shaders shader with
  | some p, some _ =>
    { gl with
      programs := fun n =>
        if n = program then some { p with attached := p.attached ++ [shader] }
        else gl.programs n }
  | _, _ => gl

/-- Call `glLinkProgram(program)`: the driver decides from the attached
shader objects; a shader that did not compile never links. -/
def glLinkProgram (drv : Driver) (program : Nat) (gl : GLState F M) : GLState F M :=
  match gl.programs program with
  | none => gl
  | some p =>
    let objs := p.attached.filterMap gl.shaders
    let ok := objs.all (fun o => o.compileStatus) && drv.links objs
    { gl with
      programs := fun n =>
        if n = program then
          some { p with
            linkStatus := ok
            mvpLocation := if ok then drv.uniformLocation objs ['M', 'V', 'P'] else -1 }
        else gl.programs n }

/-- Call `glGetUniformLocation(program, "MVP")`. -/
def glGetUniformLocation (program : Nat) (gl : GLState F M) : Int :=
  match gl.programs program with
  | none => -1
  | some p => if p.linkStatus then p.mvpLocation else -1

/-- Call `glUseProgram(program)`: only a linked program (or 0) becomes current. -/
def glUseProgram (program : Nat) (gl : GLState F M) : GLState F M :=
  if program = 0 then { gl with currentProgram := 0 }
  else
    match gl.programs program with
    | some p => if p.linkStatus then { gl with currentProgram := program } else gl
    | none => gl

/-- Call `glUniformMatrix4fv(location, 1, GL_FALSE, ptr)`: sets the uniform of
the current program; without a current program the call is an error and
changes nothing, and location -1 is ignored. -/
def glUniformMatrix4fv (location : Int) (value : M) (gl : GLState F M) : GLState F M :=
  if gl.currentProgram = 0 ∨ location = -1 then gl
  else
    { gl with
      uniformMatrix := fun p l =>
        if p = gl.currentProgram ∧ l = location then some value else gl.uniformMatrix p l }

/-- Call `glClear(GL_COLOR_BUFFER_BIT | GL_DEPTH_BUFFER_BIT)`. -/
def glClear (gl : GLState F M) : GLState F M := { gl with clears := gl.clears + 1 }

/-- Call `glEnable(GL_DEPTH_TEST)`. -/
def glEnable (gl : GLState F M) : GLState F M := { gl with depthTest := true }

end GLState

/-! ## The program -/

/-- Floating-point and matrix operations (`<cmath>`, `glm`). -/
structure Glm (F M : Type) where
  /-- value of a floating-point literal of the source -/
  lit : String → F
  add : F → F → F
  mul : F → F → F
  div : F → F → F
  neg : F → F
  sin : F → F
  cos : F → F
  /-- `glm::lookAt(eye, center, up)` -/
  lookAt : F × F × F → F × F × F → F × F × F → M
  /-- `glm::perspective(fovy, aspect, near, far)` -/
  perspective : F → F → F → F → M
  /-- `glm::translate(m, v)` -/
  translate : M → F × F × F → M
  /-- product of two matrices -/
  matMul : M → M → M
  /-- a default-constructed `glm::mat4` -/
  mat4 : M

/-- Everything outside the program. -/
structure Env (F M : Type) where
  loader : LoaderEnv F
  glm : Glm F M
  driver : Driver
  /-- content of `VertexShader.glsl`, `none` when it cannot be read -/
  vertexShaderFile : Option (List Char)
  /-- content of `FragmentShader.glsl`, `none` when it cannot be read -/
  fragmentShaderFile : Option (List Char)
  /-- content of `../tut_object.obj`, `none` when it cannot be opened -/
  modelFile : Option (List Char)

/-- The globals of `Main.cpp`, the context, the draw calls issued so far and
what was written to `std::cout`. -/
structure App (F M : Type) where
  gl : GLState F M
  draws : List (DrawCall F M)
  cout : List Char
  program : Nat
  vertex_shader : Nat
  fragment_shader : Nat
  uniMVP : Int
  positionBuffer : Nat
  positionBufferTexture : Nat
  triangleBuffer : Nat
  triangleBufferTexture : Nat
  numTriangles : Int
  trans : M
  proj : M
  view : M
  MVP : M
  orbit : F

/-- State at program start: zero-initialised globals, default matrices. -/
def App.initial {F M : Type} (env : Env F M) : App F M where
  gl := GLState.initial F M
  draws := []
  cout := []
  program := 0
  vertex_shader := 0
  fragment_shader := 0
  uniMVP := 0
  positionBuffer := 0
  positionBufferTexture := 0
  triangleBuffer := 0
  triangleBufferTexture := 0
  numTriangles := 0
  trans := env.glm.mat4
  proj := env.glm.mat4
  view := env.glm.mat4
  MVP := env.glm.mat4
  orbit := env.glm.lit "0"

section Program

variable {F M : Type} (env : Env F M)

/-- Function `update`. -/
def update (a : App F M) : App F M :=
  let g := env.glm
  let orbit := g.add a.orbit (g.lit "0.00025f")
  let radius := g.lit "30.5f"
  let view := g.lookAt
    (g.mul (g.sin orbit) radius, g.lit "0.0f", g.mul (g.neg (g.cos orbit)) radius)
    (g.lit "0.0f", g.lit "0.0f", g.lit "0.0f")
    (g.lit "0.0f", g.lit "1.0f", g.lit "0.0f")
  let MVP := g.matMul (g.matMul a.proj view) a.trans
  { a with
    orbit := orbit
    view := view
    MVP := MVP
    gl := a.gl.glUniformMatrix4fv a.uniMVP MVP }

/-- Call `glDrawArrays( mode, first, count )`, recorded with the context. -/
def glDrawArrays (mode : Nat) (first count : Int) (a : App F M) : App F M :=
  { a with draws := a.draws ++ [⟨mode, first, count, a.gl⟩] }

/-- Function `renderScene`. -/
def renderScene (a : App F M) : App F M :=
  let gl := a.gl.glClear
  let gl := gl.glUseProgram a.program
  let gl := gl.glActiveTexture 1
  let gl := gl.glBindTexture a.positionBufferTexture
  let gl := gl.glActiveTexture 2
  let gl := gl.glBindTexture a.triangleBufferTexture
  glDrawArrays GL_TRIANGLES 0 (3 * a.numTriangles) { a with gl := gl }

/-- Function `readShader`: the text of a file, or a message on `std::cout` and
the empty string when the file cannot be read. -/
def readShader (fileName : String) (file : Option (List Char)) (a : App F M) :
    List Char × App F M :=
  match file with
  | none => ([], { a with cout := a.cout ++ "Can't read file: ".toList ++ fileName.toList ++ ['\n'] })
  | some shaderCode => (shaderCode, a)

/-- Function `createShader`. -/
def createShader (sourceCode : List Char) (shaderType : ShaderType) (a : App F M) :
    Nat × App F M :=
  let created := a.gl.glCreateShader shaderType
  let shader := created.1
  let gl := created.2.glShaderSource shader sourceCode
  let gl := gl.glCompileShader env.driver shader
  let isCompiled := gl.glGetShaderiv shader false
  if isCompiled = false then
    let infolog := gl.glGetShaderInfoLog shader
    let cout := a.cout ++ "The shader failed to compile with the error:".toList ++ ['\n'] ++
      infolog ++ ['\n']
    (shader, { a with gl := gl.glDeleteShader shader, cout := cout })
  else
    (shader, { a with gl := gl })

/-- Function `initBuffers`. -/
def initBuffers (a : App F M) : Option (App F M) :=
  let buffers := a.gl.glGenBuffers2
  let positionBuffer := buffers.1.1
  let triangleBuffer := buffers.1.2
  let textures := buffers.2.glGenTextures2
  let positionBufferTexture := textures.1.1
  let triangleBufferTexture := textures.1.2
  match loadDataFromFile env.loader env.modelFile with
  | none => none
  | some mesh =>
    let gl := textures.2.glBindBuffer positionBuffer
    let gl := gl.glBufferData (4 * 3 * mesh.nPositionsLoaded) (mesh.positionData.map Word.float)
    let gl := gl.glBindBuffer triangleBuffer
    let gl := gl.glBufferData (4 * 3 * mesh.nTrianglesLoaded) (mesh.triangleData.map Word.int)
    let gl := gl.glBindTexture positionBufferTexture
    let gl := gl.glTexBuffer TexFormat.RGB32F positionBuffer
    let gl := gl.glBindTexture triangleBufferTexture
    let gl := gl.glTexBuffer TexFormat.R32I triangleBuffer
    some { a with
      gl := gl
      positionBuffer := positionBuffer
      triangleBuffer := triangleBuffer
      positionBufferTexture := positionBufferTexture
      triangleBufferTexture := triangleBufferTexture
      numTriangles := (mesh.nTrianglesLoaded : Int) }

/-- Function `init`. -/
def init (a : App F M) : Option (App F M) :=
  let g := env.glm
  let a := { a with gl := a.gl.glEnable }
  let vert := readShader "VertexShader.glsl" env.vertexShaderFile a
  let frag := readShader "FragmentShader.glsl" env.fragmentShaderFile vert.2
  let vs := createShader env vert.1 ShaderType.GL_VERTEX_SHADER frag.2
  let fs := createShader env frag.1 ShaderType.GL_FRAGMENT_SHADER vs.2
  let a := { fs.2 with vertex_shader := vs.1, fragment_shader := fs.1 }
  let prog := a.gl.glCreateProgram
  let gl := prog.2.glAttachShader prog.1 a.vertex_shader
  let gl := gl.glAttachShader prog.1 a.fragment_shader
  let gl := gl.glLinkProgram env.driver prog.1
  let a := { a with gl := gl, program := prog.1, uniMVP := gl.glGetUniformLocation prog.1 }
  match initBuffers env a with
  | none => none
  | some a =>
    some { a with
      view := g.lookAt (g.lit "0.0f", g.lit "0.0f", g.lit "-1.0f")
        (g.lit "0.0f", g.lit "0.0f", g.lit "0.0f") (g.lit "0.0f", g.lit "1.0f", g.lit "0.0f")
      proj := g.perspective (g.lit "45.0f") (g.div (g.lit "800.0f") (g.lit "600.0f"))
        (g.lit "0.1f") (g.lit "1000.0f")
      trans := g.translate a.trans (g.lit "0.0", g.lit "0.0", g.lit "0.0") }

/-- One iteration of the main loop: `update`, `renderScene`, then the buffer
swap and event polling of the windowing library, which touch none of this. -/
def frame (a : App F M) : App F M := renderScene (update env a)

/-- The main loop, for the `n` iterations the window stays open. -/
def mainLoop : Nat → App F M → App F M
  | 0, a => a
  | n + 1, a => mainLoop n (frame env a)

/-- Function `main`, with the window closing after `n` frames. -/
def main (n : Nat) : Option (App F M) := (init env (App.initial env)).map (mainLoop env n)

end Program

/-- The buffer, texture and uniform side of a context: everything the shader
and program calls leave alone. -/
structure Resources (F M : Type) where
  nextBuffer : Nat
  nextTexture : Nat
  textureBufferBinding : Nat
  bufferSize : Nat → Nat
  bufferData : Nat → List (Word F)
  activeTexture : Nat
  boundTexture : Nat → Nat
  texBuffer : Nat → Option (TexFormat × Nat)
  currentProgram : Nat
  uniformMatrix : Nat → Int → Option M

/-- The resources of a context. -/
def GLState.resources {F M : Type} (gl : GLState F M) : Resources F M :=
  ⟨gl.nextBuffer, gl.nextTexture, gl.textureBufferBinding, gl.bufferSize, gl.bufferData,
    gl.activeTexture, gl.boundTexture, gl.texBuffer, gl.currentProgram, gl.uniformMatrix⟩

/-- The state in which `init` calls `initBuffers`: the depth test enabled, both
shaders read and compiled, the program created, attached to, linked and asked
for the location of `MVP`. -/
def programSetup {F M : Type} (env : Env F M) (a : App F M) : App F M :=
  let a := { a with gl := a.gl.glEnable }
  let vert := readShader "VertexShader.glsl" env.vertexShaderFile a
  let frag := readShader "FragmentShader.glsl" env.fragmentShaderFile vert.2
  let vs := createShader env vert.1 ShaderType.GL_VERTEX_SHADER frag.2
  let fs := createShader env frag.1 ShaderType.GL_FRAGMENT_SHADER vs.2
  let a := { fs.2 with vertex_shader := vs.1, fragment_shader := fs.1 }
  let prog := a.gl.glCreateProgram
  let gl := prog.2.glAttachShader prog.1 a.vertex_shader
  let gl := gl.glAttachShader prog.1 a.fragment_shader
  let gl := gl.glLinkProgram env.driver prog.1
  { a with gl := gl, program := prog.1, uniMVP := gl.glGetUniformLocation prog.1 }

/-- A driver that rejects every shader, with a fixed log. -/
def rejectingDriver : Driver where
  compiles := fun _ _ => false
  compileLog := fun _ _ => "0(1) : error".toList
  links := fun _ => false
  uniformLocation := fun _ _ => -1

/-- A driver that accepts everything and places `MVP` at location 0. -/
def acceptingDriver : Driver where
  compiles := fun _ _ => true
  compileLog := fun _ _ => []
  links := fun _ => true
  uniformLocation := fun _ _ => 0

/-- Symbolic floats: literals, converted fields and operations left unevaluated. -/
inductive SymFloat where
  | lit (s : String)
  | field (s : List Char)
  | junk
  | add (a b : SymFloat)
  | mul (a b : SymFloat)
  | div (a b : SymFloat)
  | neg (a : SymFloat)
  | sin (a : SymFloat)
  | cos (a : SymFloat)
deriving DecidableEq, Repr

/-- Symbolic matrices: operations left unevaluated. -/
inductive SymMat where
  | identity
  | lookAt (eye center up : SymFloat × SymFloat × SymFloat)
  | perspective (fovy aspect near far : SymFloat)
  | translate (m : SymMat) (v : SymFloat × SymFloat × SymFloat)
  | matMul (a b : SymMat)
deriving DecidableEq, Repr

/-- An environment over symbolic floats and matrices, for concrete runs. -/
def symEnv (driver : Driver) (vs fs model : Option (List Char)) : Env SymFloat SymMat where
  loader :=
    { strtof := fun field =>
        (if field.any isdigit then SymFloat.field field else SymFloat.lit "0", !field.any isdigit)
      uninitFloat := fun _ => SymFloat.junk
      uninitInt := fun _ => 0 }
  glm :=
    { lit := SymFloat.lit
      add := SymFloat.add
      mul := SymFloat.mul
      div := SymFloat.div
      neg := SymFloat.neg
      sin := SymFloat.sin
      cos := SymFloat.cos
      lookAt := SymMat.lookAt
      perspective := SymMat.perspective
      translate := SymMat.translate
      matMul := SymMat.matMul
      mat4 := SymMat.identity }
  driver := driver
  vertexShaderFile := vs
  fragmentShaderFile := fs
  modelFile := model

/-- The model file of the end-to-end scenario: three vertices and one face. -/
def scenarioFile : List Char := "v 0 0 0\nv 1 0 0\nv 0 1 0\nf 1 2 3\n".toList

/-- The entries of `scenarioFile`. -/
def scenarioEntries : List Entry :=
  [.vertex ['0'] ['0'] ['0'], .vertex ['1'] ['0'] ['0'], .vertex ['0'] ['1'] ['0'],
    .face ['1'] ['2'] ['3']]

/-- The symbolic loader environment. -/
def symLoader : LoaderEnv SymFloat := (symEnv acceptingDriver none none none).loader

/-- A run in which both shaders compile and the model is `scenarioFile`. -/
def scenarioEnv : Env SymFloat SymMat :=
  symEnv acceptingDriver (some "void main();".toList) (some "void main();".toList)
    (some scenarioFile)

/-- A run in which the model file cannot be opened. -/
def unreadableEnv : Env SymFloat SymMat :=
  symEnv acceptingDriver (some "void main();".toList) (some "void main();".toList) none

/-- A run in which the driver rejects the shaders. -/
def rejectingEnv : Env SymFloat SymMat :=
  symEnv rejectingDriver (some "void main(".toList) (some "void main(".toList)
    (some scenarioFile)

/-- The orbit angle after `n` frames: `n` additions of `0.00025f`, starting
from 0, each in the arithmetic of the environment. -/
def orbitAfter {F M : Type} (g : Glm F M) : Nat → F
  | 0 => g.lit "0"
  | n + 1 => g.add (orbitAfter g n) (g.lit "0.00025f")

/-- The view matrix at an angle: the look-at matrix from the camera position
(sin(angle)·30.5, 0, −cos(angle)·30.5) towards the origin, with up (0,1,0). -/
def viewAt {F M : Type} (g : Glm F M) (angle : F) : M :=
  g.lookAt (g.mul (g.sin angle) (g.lit "30.5f"), g.lit "0.0f",
      g.mul (g.neg (g.cos angle)) (g.lit "30.5f"))
    (g.lit "0.0f", g.lit "0.0f", g.lit "0.0f") (g.lit "0.0f", g.lit "1.0f", g.lit "0.0f")

/-! ## Single precision -/

/-- Number of binary digits of a natural number (at most `fuel` of them). -/
def bitLength : Nat → Nat → Nat
  | 0, _ => 0
  | fuel + 1, n => if n = 0 then 0 else bitLength fuel (n / 2) + 1

/-- Rounding to IEEE-754 binary32, round-to-nearest with ties to even, of a
non-negative quantity given in units of 2^-149 (the smallest positive binary32
value). A quantity of at most 24 binary digits is a binary32 value; a longer
one keeps its leading 24 digits. Quantities of 2^277 units and more, which
round to infinity, are not covered. -/
def roundBinary32 (n : Nat) : Nat :=
  let len := bitLength 300 n
  if len ≤ 24 then n
  else
    let unit := 2 ^ (len - 24)
    let q := n / unit
    let r := n % unit
    if 2 * r > unit ∨ (2 * r = unit ∧ q % 2 = 1) then (q + 1) * unit else q * unit

/-- The binary32 value of the literal `0.00025f`, in units of 2^-149: it is
8589935 · 2^-35. -/
def orbitStep32 : Nat := 8589935 * 2 ^ 114

/-- Floats whose non-negative finite values are exact binary32 numbers, in units
of 2^-149; every other value and operation is left unevaluated. -/
inductive F32Term where
  | val (units : Nat)
  | lit (s : String)
  | field (s : List Char)
  | junk
  | add (a b : F32Term)
  | mul (a b : F32Term)
  | div (a b : F32Term)
  | neg (a : F32Term)
  | sin (a : F32Term)
  | cos (a : F32Term)
deriving DecidableEq, Repr

/-- Single-precision addition: exact on two values, then rounded. -/
def F32Term.plus : F32Term → F32Term → F32Term
  | .val a, .val b => .val (roundBinary32 (a + b))
  | a, b => .add a b

/-- Matrices over a float type, with every operation left unevaluated. -/
inductive MatTerm (F : Type) where
  | identity
  | lookAt (eye center up : F × F × F)
  | perspective (fovy aspect near far : F)
  | translate (m : MatTerm F) (v : F × F × F)
  | matMul (a b : MatTerm F)

/-- A run in single precision: both shaders compile and the model is
`scenarioFile`. -/
def binary32Env : Env F32Term (MatTerm F32Term) where
  loader :=
    { strtof := fun field =>
        (if field.any isdigit then F32Term.field field else F32Term.val 0, !field.any isdigit)
      uninitFloat := fun _ => F32Term.junk
      uninitInt := fun _ => 0 }
  glm :=
    { lit := fun s =>
        if s = "0" then F32Term.val 0
        else if s = "0.00025f" then F32Term.val orbitStep32
        else F32Term.lit s
      add := F32Term.plus
      mul := F32Term.mul
      div := F32Term.div
      neg := F32Term.neg
      sin := F32Term.sin
      cos := F32Term.cos
      lookAt := MatTerm.lookAt
      perspective := MatTerm.perspective
      translate := MatTerm.translate
      matMul := MatTerm.matMul
      mat4 := MatTerm.identity }
  driver := acceptingDriver
  vertexShaderFile := some "void main();".toList
  fragmentShaderFile := some "void main();".toList
  modelFile := some scenarioFile

/-- A stream on which the next extraction is attempted: no failure so far, and
`eofbit` only when nothing is left. -/
def Ready (s : IfStream) : Prop := s.failbit = false ∧ (s.eofbit = true → s.rest = [])

/-! ## Theorems -/

section Lexing

theorem lexRun_concat {σ : Type} (step : σ → Char → Option σ) (st : σ) (cs : List Char) :
    (lexRun step st cs).1 ++ (lexRun step st cs).2 = cs := by
  induction cs generalizing st with
  | nil => simp [lexRun]
  | cons c cs ih =>
    simp only [lexRun]
    cases h : step st c with
    | none => simp
    | some st' => simp [ih st']

theorem lexRun_append {σ : Type} (step : σ → Char → Option σ)
    (hsp : ∀ st c, isspace c = true → step st c = none) (st : σ) (t r : List Char)
    (hr : atBoundary r = true) :
    lexRun step st (t ++ r) = ((lexRun step st t).1, (lexRun step st t).2 ++ r) := by
  induction t generalizing st with
  | nil =>
    cases r with
    | nil => simp [lexRun]
    | cons c r =>
      have hc : isspace c = true := by simpa [atBoundary] using hr
      simp [lexRun, hsp st c hc]
  | cons c t ih =>
    simp only [List.cons_append, lexRun]
    cases h : step st c with
    | none => simp
    | some st' => simp [ih st']

theorem lexRun_whole {σ : Type} (step : σ → Char → Option σ)
    (hsp : ∀ st c, isspace c = true → step st c = none) (st : σ) (t r : List Char)
    (hr : atBoundary r = true) (ht : (lexRun step st t).2 = []) :
    lexRun step st (t ++ r) = (t, r) := by
  have h1 := lexRun_concat step st t
  rw [ht, List.append_nil] at h1
  rw [lexRun_append step hsp st t r hr, ht, h1]
  simp

theorem isspace_not_digit (c : Char) (h : isspace c = true) : isdigit c = false := by
  simp only [isspace, Bool.or_eq_true, decide_eq_true_eq] at h
  rcases h with ((((h | h) | h) | h) | h) | h <;> subst h <;> decide

theorem isspace_not_sign (c : Char) (h : isspace c = true) : issign c = false := by
  simp only [isspace, Bool.or_eq_true, decide_eq_true_eq] at h
  rcases h with ((((h | h) | h) | h) | h) | h <;> subst h <;> decide

theorem intStep_space (st : IntLex) (c : Char) (h : isspace c = true) : intStep st c = none := by
  cases st <;> simp [intStep, isspace_not_digit c h, isspace_not_sign c h]

theorem floatStep_space (st : FloatLex) (c : Char) (h : isspace c = true) :
    floatStep st c = none := by
  have h1 := isspace_not_digit c h
  have h2 := isspace_not_sign c h
  have h3 : c ≠ '.' := by rintro rfl; revert h; decide
  have h4 : c ≠ 'e' := by rintro rfl; revert h; decide
  have h5 : c ≠ 'E' := by rintro rfl; revert h; decide
  simp [floatStep, h1, h2, h3, h4, h5]

end Lexing

section Streams

theorem takeWhile_dropWhile_boundary (t r : List Char)
    (ht : t.all (fun c => !isspace c) = true) (hr : atBoundary r = true) :
    (t ++ r).takeWhile (fun c => !isspace c) = t ∧
      (t ++ r).dropWhile (fun c => !isspace c) = r := by
  induction t with
  | nil =>
    cases r with
    | nil => simp
    | cons c r =>
      have hc : isspace c = true := by simpa [atBoundary] using hr
      simp [List.takeWhile, List.dropWhile, hc]
  | cons c t ih =>
    simp only [List.all_cons, Bool.and_eq_true] at ht
    obtain ⟨h1, h2⟩ := ih ht.2
    simp only [List.cons_append, List.takeWhile, List.dropWhile, ht.1]
    exact ⟨congrArg (List.cons c) h1, h2⟩

theorem eatToken_spec {t text r : List Char} (h : eatToken t text = some r) :
    text.dropWhile isspace = t ++ r ∧ t ≠ [] ∧ t.all (fun c => !isspace c) = true ∧
      atBoundary r = true := by
  unfold eatToken at h
  simp only at h
  split at h
  · rename_i hc
    obtain ⟨h1, h2, h3, h4⟩ := hc
    simp only [Option.some.injEq] at h
    subst h
    refine ⟨?_, h1, h2, h4⟩
    conv_lhs => rw [← List.take_append_drop t.length (List.dropWhile isspace text)]
    rw [h3]
  · simp at h

theorem eatToken_of_spec {t text r : List Char} (h1 : text.dropWhile isspace = t ++ r)
    (h2 : t ≠ []) (h3 : t.all (fun c => !isspace c) = true) (h4 : atBoundary r = true) :
    eatToken t text = some r := by
  unfold eatToken
  simp only [h1, List.take_left', List.drop_left', h4, and_true, h3]
  simp [h2]

theorem length_dropWhile_le (p : Char → Bool) (l : List Char) :
    (l.dropWhile p).length ≤ l.length := by
  induction l with
  | nil => simp
  | cons c l ih =>
    simp only [List.dropWhile]
    split
    · simp only [List.length_cons]; omega
    · simp

theorem eatToken_length {t text r : List Char} (h : eatToken t text = some r) :
    r.length < text.length := by
  obtain ⟨h1, h2, -, -⟩ := eatToken_spec h
  have h5 := length_dropWhile_le isspace text
  rw [h1, List.length_append] at h5
  have : 0 < t.length := List.length_pos.mpr h2
  omega

theorem Ready.sentry {s : IfStream} (hs : Ready s) {t r : List Char}
    (h : eatToken t s.rest = some r) : s.sentry = (true, ⟨t ++ r, false, false⟩) := by
  obtain ⟨h1, h2, -, -⟩ := eatToken_spec h
  have hne : s.rest ≠ [] := by
    intro h0
    rw [h0] at h1
    simp at h1
    exact h2 h1.1
  have he : s.eofbit = false := by
    cases hb : s.eofbit with
    | false => rfl
    | true => exact absurd (hs.2 hb) hne
  unfold IfStream.sentry IfStream.good
  rw [he, hs.1, h1]
  cases t with
  | nil => exact absurd rfl h2
  | cons c t => rfl

theorem ready_after (r : List Char) : Ready ⟨r, r.isEmpty, false⟩ := by
  refine ⟨rfl, ?_⟩
  intro h
  simpa using h

theorem extractString_token {s : IfStream} (hs : Ready s) {t r : List Char}
    (h : eatToken t s.rest = some r) :
    s.extractString = (t, ⟨r, r.isEmpty, false⟩) := by
  obtain ⟨-, h2, h3, h4⟩ := eatToken_spec h
  obtain ⟨h5, h6⟩ := takeWhile_dropWhile_boundary t r h3 h4
  unfold IfStream.extractString
  rw [hs.sentry h]
  simp only [h5, h6]
  cases t with
  | nil => exact absurd rfl h2
  | cons c t => rfl

theorem extractInt_token {s : IfStream} (hs : Ready s) {t r : List Char}
    (h : eatToken t s.rest = some r) (hp : parseableInt t = true) (old : Int) :
    s.extractInt old = (intValue t, ⟨r, r.isEmpty, false⟩) := by
  obtain ⟨-, -, -, h4⟩ := eatToken_spec h
  simp only [parseableInt, Bool.and_eq_true, List.isEmpty_iff, Bool.not_eq_true'] at hp
  have hl := lexRun_whole intStep intStep_space IntLex.start t r h4 hp.1
  have hv : convInt t = (intValue t, false) := by
    have h2 := hp.2
    unfold convInt at h2 ⊢
    split
    · rename_i hc; rw [if_pos hc] at h2; simp at h2
    · rename_i hc
      rw [if_neg hc] at h2
      split
      · rename_i hc2; rw [if_pos hc2] at h2; simp at h2
      · rename_i hc2
        rw [if_neg hc2] at h2
        split
        · rename_i hc3; rw [if_pos hc3] at h2; simp at h2
        · rfl
  unfold IfStream.extractInt
  rw [hs.sentry h]
  simp only [hl, hv]

theorem extractFloat_token {F : Type} (env : LoaderEnv F) {s : IfStream} (hs : Ready s)
    {t r : List Char} (h : eatToken t s.rest = some r) (hp : parseableFloat env t = true)
    (old : F) :
    s.extractFloat env.strtof old = ((env.strtof t).1, ⟨r, r.isEmpty, false⟩) := by
  obtain ⟨-, -, -, h4⟩ := eatToken_spec h
  simp only [parseableFloat, Bool.and_eq_true, List.isEmpty_iff, Bool.not_eq_true'] at hp
  have hl := lexRun_whole floatStep floatStep_space FloatLex.start t r h4 hp.1
  unfold IfStream.extractFloat
  rw [hs.sentry h]
  simp only [hl, hp.2]

end Streams

section Loader

variable {F : Type} (env : LoaderEnv F)

theorem loadLoop_done (fuel : Nat) (st : LoadState F)
    (h : (!st.file.eof && st.file.good) = false) : loadLoop env fuel st = some st := by
  cases fuel <;> simp [loadLoop, h]

theorem loadLoop_succ (fuel : Nat) (st : LoadState F)
    (h : (!st.file.eof && st.file.good) = true) :
    loadLoop env (fuel + 1) st = loadLoop env fuel (loadStep env st) := by
  simp only [loadLoop, h, if_true]

theorem Ready.running {s : IfStream} (hs : Ready s) {t r : List Char}
    (h : eatToken t s.rest = some r) : (!s.eof && s.good) = true := by
  obtain ⟨h1, h2, -, -⟩ := eatToken_spec h
  have hne : s.rest ≠ [] := by
    intro h0
    rw [h0] at h1
    simp at h1
    exact h2 h1.1
  have he : s.eofbit = false := by
    cases hb : s.eofbit with
    | false => rfl
    | true => exact absurd (hs.2 hb) hne
  simp [IfStream.eof, IfStream.good, he, hs.1]

theorem loadStep_other (st : LoadState F) (hs : Ready st.file) {t r : List Char}
    (h : eatToken t st.file.rest = some r) (hv : t ≠ ['v']) (hf : t ≠ ['f']) :
    loadStep env st = ⟨⟨r, r.isEmpty, false⟩, st.positionData, st.triangleData⟩ := by
  unfold loadStep
  simp only [extractString_token hs h, if_neg hv, if_neg hf]

theorem loadStep_vertex (st : LoadState F) (hs : Ready st.file) {x y z r1 r2 r3 r4 : List Char}
    (h1 : eatToken ['v'] st.file.rest = some r1) (h2 : eatToken x r1 = some r2)
    (h3 : eatToken y r2 = some r3) (h4 : eatToken z r3 = some r4)
    (hx : parseableFloat env x = true) (hy : parseableFloat env y = true)
    (hz : parseableFloat env z = true) :
    loadStep env st =
      ⟨⟨r4, r4.isEmpty, false⟩,
        st.positionData ++ [(env.strtof x).1, (env.strtof y).1, (env.strtof z).1],
        st.triangleData⟩ := by
  unfold loadStep
  simp only [extractString_token hs h1, if_true]
  rw [extractFloat_token env (ready_after r1) h2 hx]
  simp only
  rw [extractFloat_token env (ready_after r2) h3 hy]
  simp only
  rw [extractFloat_token env (ready_after r3) h4 hz]

theorem loadStep_face (st : LoadState F) (hs : Ready st.file) {i j k r1 r2 r3 r4 : List Char}
    (h1 : eatToken ['f'] st.file.rest = some r1) (h2 : eatToken i r1 = some r2)
    (h3 : eatToken j r2 = some r3) (h4 : eatToken k r3 = some r4)
    (hi : parseableInt i = true) (hj : parseableInt j = true) (hk : parseableInt k = true) :
    loadStep env st =
      ⟨⟨r4, r4.isEmpty, false⟩, st.positionData,
        st.triangleData ++
          [wrapInt32 (intValue i - 1), wrapInt32 (intValue j - 1),
            wrapInt32 (intValue k - 1)]⟩ := by
  unfold loadStep
  have hne : (['f'] : List Char) ≠ ['v'] := by decide
  simp only [extractString_token hs h1, if_neg hne, if_true]
  rw [extractInt_token (ready_after r1) h2 hi]
  simp only
  rw [extractInt_token (ready_after r2) h3 hj]
  simp only
  rw [extractInt_token (ready_after r3) h4 hk]

theorem loadStep_trailing (st : LoadState F) (hs : st.file.good = true)
    (hr : st.file.rest.all isspace = true) :
    loadStep env st = ⟨⟨[], true, true⟩, st.positionData, st.triangleData⟩ := by
  have hd : st.file.rest.dropWhile isspace = [] := by
    rw [List.dropWhile_eq_nil_iff]
    intro c hc
    exact List.all_eq_true.mp hr c hc
  have hsn : st.file.sentry = (false, ⟨[], true, true⟩) := by
    unfold IfStream.sentry
    rw [if_pos hs, hd]
  have hv : ([] : List Char) ≠ ['v'] := by decide
  have hf : ([] : List Char) ≠ ['f'] := by decide
  unfold loadStep IfStream.extractString
  simp only [hsn, if_neg hv, if_neg hf]

theorem eatTokens_cons {t : List Char} {ts : List (List Char)} {text r : List Char}
    (h : eatTokens (t :: ts) text = some r) :
    ∃ r1, eatToken t text = some r1 ∧ eatTokens ts r1 = some r := by
  simp only [eatTokens, Option.bind_eq_some] at h
  exact h

/-- The loop on a stream that holds the tokens of well-formed entries: it ends
within the fuel and appends exactly the data of the entries. -/
theorem loadLoop_entries (es : List Entry) :
    ∀ (st : LoadState F) (fuel : Nat) (r : List Char), Ready st.file →
      eatTokens (entryTokens es) st.file.rest = some r → r.all isspace = true →
      es.all (Entry.ok env) = true → st.file.rest.length < fuel →
      ∃ f, loadLoop env fuel st =
        some ⟨f, st.positionData ++ vertexData env es, st.triangleData ++ faceData es⟩ := by
  induction es with
  | nil =>
    intro st fuel r hs he hr _ hfuel
    simp only [entryTokens, List.flatMap_nil, eatTokens, Option.some.injEq] at he
    subst he
    obtain ⟨n, rfl⟩ : ∃ n, fuel = n + 1 := ⟨fuel - 1, by omega⟩
    refine ⟨if (!st.file.eof && st.file.good) = true then ⟨[], true, true⟩ else st.file, ?_⟩
    by_cases hc : (!st.file.eof && st.file.good) = true
    · rw [loadLoop_succ env n st hc, if_pos hc]
      have hg : st.file.good = true := by
        simp only [Bool.and_eq_true] at hc
        exact hc.2
      rw [loadStep_trailing env st hg hr, loadLoop_done env n _ (by rfl)]
      simp [vertexData, faceData]
    · rw [if_neg hc]
      have hc' : (!st.file.eof && st.file.good) = false := by simpa using hc
      rw [loadLoop_done env _ st hc']
      simp [vertexData, faceData]
  | cons e es ih =>
    intro st fuel r hs he hr hok hfuel
    obtain ⟨n, rfl⟩ : ∃ n, fuel = n + 1 := ⟨fuel - 1, by omega⟩
    simp only [List.all_cons, Bool.and_eq_true] at hok
    obtain ⟨hok1, hok2⟩ := hok
    cases e with
    | other t =>
      simp only [entryTokens, List.flatMap_cons, Entry.tokens, List.singleton_append] at he
      obtain ⟨r1, h1, h2⟩ := eatTokens_cons he
      simp only [Entry.ok, Bool.and_eq_true, decide_eq_true_eq] at hok1
      have hl := eatToken_length h1
      rw [loadLoop_succ env n st (hs.running h1), loadStep_other env st hs h1 hok1.1 hok1.2]
      obtain ⟨f, hf⟩ := ih ⟨⟨r1, r1.isEmpty, false⟩, st.positionData, st.triangleData⟩ n r
        (ready_after r1) h2 hr hok2 (by simp only; omega)
      exact ⟨f, by rw [hf]; simp [vertexData, faceData]⟩
    | vertex x y z =>
      simp only [entryTokens, List.flatMap_cons, Entry.tokens, List.cons_append,
        List.nil_append] at he
      obtain ⟨r1, h1, he⟩ := eatTokens_cons he
      obtain ⟨r2, h2, he⟩ := eatTokens_cons he
      obtain ⟨r3, h3, he⟩ := eatTokens_cons he
      obtain ⟨r4, h4, he⟩ := eatTokens_cons he
      simp only [Entry.ok, Bool.and_eq_true] at hok1
      have hl1 := eatToken_length h1
      have hl2 := eatToken_length h2
      have hl3 := eatToken_length h3
      have hl4 := eatToken_length h4
      rw [loadLoop_succ env n st (hs.running h1),
        loadStep_vertex env st hs h1 h2 h3 h4 hok1.1.1 hok1.1.2 hok1.2]
      obtain ⟨f, hf⟩ := ih ⟨⟨r4, r4.isEmpty, false⟩, _, st.triangleData⟩ n r
        (ready_after r4) he hr hok2 (by simp only; omega)
      exact ⟨f, by rw [hf]; simp [vertexData, faceData]⟩
    | face i j k =>
      simp only [entryTokens, List.flatMap_cons, Entry.tokens, List.cons_append,
        List.nil_append] at he
      obtain ⟨r1, h1, he⟩ := eatTokens_cons he
      obtain ⟨r2, h2, he⟩ := eatTokens_cons he
      obtain ⟨r3, h3, he⟩ := eatTokens_cons he
      obtain ⟨r4, h4, he⟩ := eatTokens_cons he
      simp only [Entry.ok, Bool.and_eq_true] at hok1
      have hl1 := eatToken_length h1
      have hl2 := eatToken_length h2
      have hl3 := eatToken_length h3
      have hl4 := eatToken_length h4
      rw [loadLoop_succ env n st (hs.running h1),
        loadStep_face env st hs h1 h2 h3 h4 hok1.1.1 hok1.1.2 hok1.2]
      obtain ⟨f, hf⟩ := ih ⟨⟨r4, r4.isEmpty, false⟩, st.positionData, _⟩ n r
        (ready_after r4) he hr hok2 (by simp only; omega)
      exact ⟨f, by rw [hf]; simp [vertexData, faceData]⟩

end Loader

section Meshes

variable {F : Type} (env : LoaderEnv F)

theorem triple_succ_cons {α : Type} (a b c : α) (xs : List α) (i : Nat) :
    triple (a :: b :: c :: xs) (i + 1) = triple xs i := by
  unfold triple
  have h : 3 * (i + 1) = 3 * i + 3 := by ring
  rw [h]
  rfl

theorem triples_zero {α : Type} (xs : List α) : triples xs 0 = [] := rfl

theorem vertexData_length (es : List Entry) :
    (vertexData env es).length = 3 * vertexCount es := by
  induction es with
  | nil => rfl
  | cons e es ih =>
    cases e with
    | vertex x y z => simp only [vertexData, vertexCount, List.length_cons, ih]; ring
    | face i j k => simpa only [vertexData, vertexCount] using ih
    | other t => simpa only [vertexData, vertexCount] using ih

theorem faceData_length (es : List Entry) : (faceData es).length = 3 * faceCount es := by
  induction es with
  | nil => rfl
  | cons e es ih =>
    cases e with
    | vertex x y z => simpa only [faceData, faceCount] using ih
    | face i j k => simp only [faceData, faceCount, List.length_cons, ih]; ring
    | other t => simpa only [faceData, faceCount] using ih

/-- What `loadDataFromFile` returns on a well-formed file. -/
theorem loadDataFromFile_wellFormed (es : List Entry) (text : List Char)
    (h : wellFormed env es text = true) :
    loadDataFromFile env (some text) =
      some ⟨vertexData env es, vertexCount es, faceData es, faceCount es,
        !(vertexData env es).isEmpty && !(faceData es).isEmpty⟩ := by
  simp only [wellFormed, Bool.and_eq_true] at h
  obtain ⟨htok, hok⟩ := h
  unfold tokenized at htok
  cases he : eatTokens (entryTokens es) text with
  | none => rw [he] at htok; simp at htok
  | some r =>
    rw [he] at htok
    simp only at htok
    obtain ⟨f, hf⟩ := loadLoop_entries env es ⟨⟨text, false, false⟩, [], []⟩ (text.length + 1) r
      ⟨rfl, by intro h0; simp at h0⟩ he htok hok (by simp)
    unfold loadDataFromFile
    simp only [IfStream.openFile]
    rw [hf]
    simp only [Option.map_some', List.nil_append, LoadState.outputs, vertexData_length,
      faceData_length]
    simp

end Meshes

section Totality

variable {F : Type} (env : LoaderEnv F)

theorem sentry_length (s : IfStream) : s.sentry.2.rest.length ≤ s.rest.length := by
  unfold IfStream.sentry
  split
  · have h := length_dropWhile_le isspace s.rest
    split
    · simp
    · rename_i c r hc
      rw [hc] at h
      exact h
  · simp

theorem sentry_failed (s : IfStream) (h : s.sentry.1 = false) : s.sentry.2.failbit = true := by
  unfold IfStream.sentry at h ⊢
  split
  · split
    · rfl
    · rename_i c r hc
      rw [if_pos (by assumption), hc] at h
      simp at h
  · rfl

theorem lexRun_length {σ : Type} (step : σ → Char → Option σ) (st : σ) (cs : List Char) :
    (lexRun step st cs).2.length ≤ cs.length := by
  have h := congrArg List.length (lexRun_concat step st cs)
  rw [List.length_append] at h
  omega

theorem extractInt_length (s : IfStream) (old : Int) :
    (s.extractInt old).2.rest.length ≤ s.rest.length := by
  have h := sentry_length s
  unfold IfStream.extractInt
  cases hs : s.sentry with
  | mk ok s' =>
    rw [hs] at h
    cases ok with
    | false => exact h
    | true => exact le_trans (lexRun_length intStep IntLex.start s'.rest) h

theorem extractFloat_length (s : IfStream) (old : F) :
    (s.extractFloat env.strtof old).2.rest.length ≤ s.rest.length := by
  have h := sentry_length s
  unfold IfStream.extractFloat
  cases hs : s.sentry with
  | mk ok s' =>
    rw [hs] at h
    cases ok with
    | false => exact h
    | true => exact le_trans (lexRun_length floatStep FloatLex.start s'.rest) h

theorem extractInt_failbit (s : IfStream) (old : Int) (h : s.failbit = true) :
    (s.extractInt old).2.failbit = true := by
  unfold IfStream.extractInt IfStream.sentry IfStream.good
  simp [h]

theorem extractFloat_failbit (s : IfStream) (old : F) (h : s.failbit = true) :
    (s.extractFloat env.strtof old).2.failbit = true := by
  unfold IfStream.extractFloat IfStream.sentry IfStream.good
  simp [h]

theorem length_dropWhile_lt (p : Char → Bool) (c : Char) (r : List Char) (h : p c = true) :
    ((c :: r).dropWhile p).length < (c :: r).length := by
  have h1 := length_dropWhile_le p r
  simp only [List.dropWhile, h, List.length_cons]
  omega

/-- The first extraction of an iteration either fails or consumes a character. -/
theorem extractString_progress (s : IfStream) :
    s.extractString.2.failbit = true ∨ s.extractString.2.rest.length < s.rest.length := by
  have h := sentry_length s
  have hf := sentry_failed s
  unfold IfStream.extractString
  cases hs : s.sentry with
  | mk ok s' =>
    rw [hs] at h hf
    cases ok with
    | false => left; exact hf rfl
    | true =>
      simp only
      cases hr : s'.rest with
      | nil => left; rfl
      | cons c r =>
        rw [hr] at h
        by_cases hc : isspace c = true
        · left
          simp [List.takeWhile, hc]
        · right
          have hc' : (fun c => !isspace c) c = true := by simpa using hc
          have := length_dropWhile_lt (fun c => !isspace c) c r hc'
          simp only at this ⊢
          omega

/-- An iteration of the loader either leaves the stream failed or shortens it. -/
theorem loadStep_progress (st : LoadState F) :
    (loadStep env st).file.failbit = true ∨
      (loadStep env st).file.rest.length < st.file.rest.length := by
  have h0 := extractString_progress st.file
  unfold loadStep
  simp only
  split
  · rcases h0 with h0 | h0
    · left
      exact extractFloat_failbit env _ _ (extractFloat_failbit env _ _
        (extractFloat_failbit env _ _ h0))
    · right
      have h1 := extractFloat_length env st.file.extractString.2
        (env.uninitFloat st.positionData.length)
      have h2 := extractFloat_length env
        (st.file.extractString.2.extractFloat env.strtof
          (env.uninitFloat st.positionData.length)).2
        (st.file.extractString.2.extractFloat env.strtof
          (env.uninitFloat st.positionData.length)).1
      exact lt_of_le_of_lt (extractFloat_length env _ _) (by omega)
  · split
    · rcases h0 with h0 | h0
      · left
        exact extractInt_failbit _ _ (extractInt_failbit _ _ (extractInt_failbit _ _ h0))
      · right
        have h1 := extractInt_length st.file.extractString.2
          (env.uninitInt st.triangleData.length)
        have h2 := extractInt_length
          (st.file.extractString.2.extractInt (env.uninitInt st.triangleData.length)).2
          (st.file.extractString.2.extractInt (env.uninitInt st.triangleData.length)).1
        exact lt_of_le_of_lt (extractInt_length _ _) (by omega)
    · exact h0

/-- Each iteration adds a whole triple to one of the arrays, or nothing. -/
theorem loadStep_lengths (st : LoadState F) :
    ((loadStep env st).positionData.length = st.positionData.length ∨
      (loadStep env st).positionData.length = st.positionData.length + 3) ∧
    ((loadStep env st).triangleData.length = st.triangleData.length ∨
      (loadStep env st).triangleData.length = st.triangleData.length + 3) := by
  unfold loadStep
  simp only
  split
  · simp
  · split <;> simp

/-- The loop ends within one more iteration than the stream has characters, and
both arrays keep a length that is a multiple of 3. -/
theorem loadLoop_total (fuel : Nat) :
    ∀ st : LoadState F, st.file.rest.length < fuel →
      st.positionData.length % 3 = 0 → st.triangleData.length % 3 = 0 →
      ∃ st', loadLoop env fuel st = some st' ∧ st'.positionData.length % 3 = 0 ∧
        st'.triangleData.length % 3 = 0 := by
  induction fuel with
  | zero => intro st h; omega
  | succ n ih =>
    intro st hfuel hp ht
    by_cases hc : (!st.file.eof && st.file.good) = true
    · rw [loadLoop_succ env n st hc]
      obtain ⟨hl1, hl2⟩ := loadStep_lengths env st
      have hp' : (loadStep env st).positionData.length % 3 = 0 := by omega
      have ht' : (loadStep env st).triangleData.length % 3 = 0 := by omega
      rcases loadStep_progress env st with hfail | hlt
      · refine ⟨loadStep env st, loadLoop_done env n _ ?_, hp', ht'⟩
        simp [IfStream.good, hfail]
      · exact ih (loadStep env st) (by omega) hp' ht'
    · have hc' : (!st.file.eof && st.file.good) = false := by simpa using hc
      exact ⟨st, loadLoop_done env _ st hc', hp, ht⟩

/-- For every file, openable or not, `loadDataFromFile` returns, and the counts
it reports account for every value of the arrays. -/
theorem loadDataFromFile_total (disk : Option (List Char)) :
    ∃ mesh, loadDataFromFile env disk = some mesh ∧
      mesh.positionData.length = 3 * mesh.nPositionsLoaded ∧
      mesh.triangleData.length = 3 * mesh.nTrianglesLoaded := by
  obtain ⟨st', h, hp, ht⟩ := loadLoop_total env ((IfStream.openFile disk).rest.length + 1)
    ⟨IfStream.openFile disk, [], []⟩ (by simp) rfl rfl
  refine ⟨_, by unfold loadDataFromFile; simp only [h, Option.map_some']; rfl, ?_, ?_⟩
  · simp only [LoadState.outputs]; omega
  · simp only [LoadState.outputs]; omega

theorem loadDataFromFile_none :
    loadDataFromFile env none = some ⟨[], 0, [], 0, false⟩ := by
  simp [loadDataFromFile, IfStream.openFile, loadLoop, IfStream.eof, IfStream.good,
    LoadState.outputs]

theorem loadDataFromFile_empty :
    loadDataFromFile env (some []) = some ⟨[], 0, [], 0, false⟩ := by
  simp [loadDataFromFile, IfStream.openFile, loadLoop, IfStream.eof, IfStream.good, loadStep,
    IfStream.extractString, IfStream.sentry, LoadState.outputs]

end Totality

section Insertion

theorem dropWhile_append_of_ne_nil (p : Char → Bool) (x y : List Char)
    (h : x.dropWhile p ≠ []) : (x ++ y).dropWhile p = x.dropWhile p ++ y := by
  induction x with
  | nil => simp at h
  | cons c x ih =>
    by_cases hc : p c = true
    · simp only [List.cons_append, List.dropWhile, hc] at h ⊢
      exact ih h
    · simp only [List.cons_append, List.dropWhile, hc]
      rfl

theorem dropWhile_append_of_all (p : Char → Bool) (x y : List Char)
    (h : x.all p = true) : (x ++ y).dropWhile p = y.dropWhile p := by
  induction x with
  | nil => rfl
  | cons c x ih =>
    simp only [List.all_cons, Bool.and_eq_true] at h
    simp only [List.cons_append, List.dropWhile, h.1]
    exact ih h.2

theorem atBoundary_append (r y : List Char) (h : r ≠ []) :
    atBoundary (r ++ y) = atBoundary r := by
  cases r with
  | nil => exact absurd rfl h
  | cons c r => rfl

theorem eatToken_append {t x r : List Char} (y : List Char) (h : eatToken t x = some r)
    (hr : r ≠ []) : eatToken t (x ++ y) = some (r ++ y) := by
  obtain ⟨h1, h2, h3, h4⟩ := eatToken_spec h
  have hne : x.dropWhile isspace ≠ [] := by
    rw [h1]
    simp [h2]
  refine eatToken_of_spec ?_ h2 h3 ?_
  · rw [dropWhile_append_of_ne_nil isspace x y hne, h1, List.append_assoc]
  · rw [atBoundary_append r y hr]
    exact h4

theorem eatToken_skip {t : List Char} (ws y : List Char) (h : ws.all isspace = true) :
    eatToken t (ws ++ y) = eatToken t y := by
  unfold eatToken
  rw [dropWhile_append_of_all isspace ws y h]

theorem eatToken_nil (t : List Char) : eatToken t [] = none := by
  unfold eatToken
  simp only [List.dropWhile_nil, List.take_nil, List.drop_nil]
  split
  · rename_i hc
    exact absurd hc.2.2.1.symm hc.1
  · rfl

theorem eatTokens_append_text (a : List (List Char)) :
    ∀ {x r : List Char} (y : List Char), eatTokens a x = some r → (a = [] ∨ r ≠ []) →
      eatTokens a (x ++ y) = some (r ++ y) := by
  induction a with
  | nil =>
    intro x r y h _
    simp only [eatTokens, Option.some.injEq] at h ⊢
    rw [h]
  | cons t ts ih =>
    intro x r y h hr
    obtain ⟨r1, h1, h2⟩ := eatTokens_cons h
    have hr' : r ≠ [] := by
      rcases hr with hr | hr
      · exact absurd hr (by simp)
      · exact hr
    have hr1 : r1 ≠ [] := by
      intro h0
      subst h0
      cases ts with
      | nil =>
        simp only [eatTokens, Option.some.injEq] at h2
        exact hr' h2.symm
      | cons t' ts' =>
        simp only [eatTokens, eatToken_nil, Option.none_bind] at h2
        exact absurd h2 (by simp)
    simp only [eatTokens, eatToken_append y h1 hr1, Option.some_bind]
    exact ih y h2 (Or.inr hr')

theorem eatTokens_append_tokens (a b : List (List Char)) (x : List Char) :
    eatTokens (a ++ b) x = (eatTokens a x).bind (eatTokens b) := by
  induction a generalizing x with
  | nil => simp [eatTokens]
  | cons t ts ih =>
    simp only [List.cons_append, eatTokens]
    cases eatToken t x with
    | none => rfl
    | some r => simp [ih r]

/-- After at least one token has been read, the character before the rest is
not whitespace. -/
theorem eatTokens_before_rest (a : List (List Char)) :
    ∀ {x r : List Char}, eatTokens a x = some r → a ≠ [] →
      ∃ u c, x = u ++ c :: r ∧ isspace c = false := by
  induction a with
  | nil => intro x r _ h; exact absurd rfl h
  | cons t ts ih =>
    intro x r h _
    obtain ⟨r1, h1, h2⟩ := eatTokens_cons h
    obtain ⟨h3, h4, h5, -⟩ := eatToken_spec h1
    have hx : x = x.takeWhile isspace ++ (t ++ r1) := by
      rw [← h3, List.takeWhile_append_dropWhile]
    cases ts with
    | nil =>
      simp only [eatTokens, Option.some.injEq] at h2
      subst h2
      refine ⟨x.takeWhile isspace ++ t.dropLast, t.getLast h4, ?_, ?_⟩
      · conv_lhs => rw [hx, ← List.dropLast_append_getLast h4]
        simp
      · have := List.all_eq_true.mp h5 (t.getLast h4) (List.getLast_mem h4)
        simpa using this
    | cons t' ts' =>
      obtain ⟨u, c, hu, hc⟩ := ih h2 (by simp)
      refine ⟨x.takeWhile isspace ++ t ++ u, c, ?_, hc⟩
      calc x = x.takeWhile isspace ++ (t ++ r1) := hx
        _ = x.takeWhile isspace ++ t ++ u ++ c :: r := by rw [hu]; simp

theorem endsLine_rest_ne_nil {a : List (List Char)} {x r : List Char}
    (h : eatTokens a x = some r) (ha : a ≠ []) (hx : endsLine x = true) : r ≠ [] := by
  obtain ⟨u, c, hu, hc⟩ := eatTokens_before_rest a h ha
  intro h0
  subst h0
  subst hu
  have hlast : (u ++ [c]).getLast? = some c := by simp
  unfold endsLine at hx
  rw [hlast] at hx
  simp only [decide_eq_true_eq] at hx
  subst hx
  revert hc
  decide

theorem tokenized_skip (b : List (List Char)) (ws y : List Char) (h : ws.all isspace = true) :
    tokenized b (ws ++ y) = tokenized b y := by
  unfold tokenized
  cases b with
  | nil => simp [eatTokens, h]
  | cons t ts => simp only [eatTokens, eatToken_skip ws y h]

/-- Texts that end a line concatenate to the concatenation of their tokens. -/
theorem tokenized_append {a b : List (List Char)} {x y : List Char}
    (hx : tokenized a x = true) (hl : endsLine x = true) (hy : tokenized b y = true) :
    tokenized (a ++ b) (x ++ y) = true := by
  unfold tokenized at hx
  cases h : eatTokens a x with
  | none => rw [h] at hx; simp at hx
  | some r =>
    rw [h] at hx
    simp only at hx
    by_cases ha : a = []
    · subst ha
      simp only [eatTokens, Option.some.injEq] at h
      subst h
      rw [List.nil_append, tokenized_skip b x y hx]
      exact hy
    · have hr := endsLine_rest_ne_nil h ha hl
      have h2 := eatTokens_append_text a y h (Or.inr hr)
      have h3 : tokenized b (r ++ y) = true := by rw [tokenized_skip b r y hx]; exact hy
      unfold tokenized at h3 ⊢
      rw [eatTokens_append_tokens, h2]
      exact h3

theorem endsLine_append (x y : List Char) (hy : isLine y = true) : endsLine (x ++ y) = true := by
  unfold isLine at hy
  cases hr : y.reverse with
  | nil => rw [hr] at hy; simp at hy
  | cons c body =>
    rw [hr] at hy
    simp only [Bool.and_eq_true, decide_eq_true_eq] at hy
    have hy' : y = body.reverse ++ [c] := by
      have := congrArg List.reverse hr
      simpa using this
    have hlast : (x ++ y).getLast? = some c := by rw [hy', ← List.append_assoc]; simp
    unfold endsLine
    rw [hlast]
    simp [hy.1]

end Insertion

section InsertionClaim

variable {F : Type} (env : LoaderEnv F)

theorem entryTokens_append (a b : List Entry) :
    entryTokens (a ++ b) = entryTokens a ++ entryTokens b := by
  simp [entryTokens]

theorem entryTokens_others (ls : List (List Char)) : entryTokens (ls.map Entry.other) = ls := by
  induction ls with
  | nil => rfl
  | cons t ts ih =>
    simp only [entryTokens, List.map_cons, List.flatMap_cons, Entry.tokens] at ih ⊢
    rw [ih]
    rfl

theorem vertexData_append (a b : List Entry) :
    vertexData env (a ++ b) = vertexData env a ++ vertexData env b := by
  induction a with
  | nil => rfl
  | cons e es ih => cases e <;> simp [vertexData, ih]

theorem faceData_append (a b : List Entry) : faceData (a ++ b) = faceData a ++ faceData b := by
  induction a with
  | nil => rfl
  | cons e es ih => cases e <;> simp [faceData, ih]

theorem vertexCount_append (a b : List Entry) :
    vertexCount (a ++ b) = vertexCount a + vertexCount b := by
  induction a with
  | nil => simp [vertexCount]
  | cons e es ih => cases e <;> simp [vertexCount, ih]; omega

theorem faceCount_append (a b : List Entry) : faceCount (a ++ b) = faceCount a + faceCount b := by
  induction a with
  | nil => simp [faceCount]
  | cons e es ih => cases e <;> simp [faceCount, ih]; omega

theorem others_data (ls : List (List Char)) :
    vertexData env (ls.map Entry.other) = [] ∧ faceData (ls.map Entry.other) = [] ∧
      vertexCount (ls.map Entry.other) = 0 ∧ faceCount (ls.map Entry.other) = 0 := by
  induction ls with
  | nil => exact ⟨rfl, rfl, rfl, rfl⟩
  | cons t ts ih => simpa [vertexData, faceData, vertexCount, faceCount] using ih

end InsertionClaim


section InsertionGeneral

variable {F : Type} (env : LoaderEnv F)

/-- With enough fuel the result of the loop does not depend on the fuel. -/
theorem loadLoop_stable (fuel1 : Nat) :
    ∀ (fuel2 : Nat) (st : LoadState F),
      (st.file.failbit = true ∨ st.file.rest.length < fuel1) →
      (st.file.failbit = true ∨ st.file.rest.length < fuel2) →
      loadLoop env fuel1 st = loadLoop env fuel2 st := by
  induction fuel1 with
  | zero =>
    intro fuel2 st h1 _
    have hf : st.file.failbit = true := by
      rcases h1 with h1 | h1
      · exact h1
      · omega
    have hc : (!st.file.eof && st.file.good) = false := by simp [IfStream.good, hf]
    rw [loadLoop_done env _ st hc, loadLoop_done env _ st hc]
  | succ n ih =>
    intro fuel2 st h1 h2
    by_cases hc : (!st.file.eof && st.file.good) = true
    · have hf : st.file.failbit = false := by
        simp only [IfStream.good, Bool.and_eq_true, Bool.not_eq_true'] at hc
        exact hc.2.2
      have h1' : st.file.rest.length < n + 1 := by
        rcases h1 with h1 | h1
        · rw [hf] at h1; exact absurd h1 (by simp)
        · exact h1
      have h2' : st.file.rest.length < fuel2 := by
        rcases h2 with h2 | h2
        · rw [hf] at h2; exact absurd h2 (by simp)
        · exact h2
      obtain ⟨m, rfl⟩ : ∃ m, fuel2 = m + 1 := ⟨fuel2 - 1, by omega⟩
      rw [loadLoop_succ env n st hc, loadLoop_succ env m st hc]
      rcases loadStep_progress env st with hp | hp
      · exact ih m _ (Or.inl hp) (Or.inl hp)
      · exact ih m _ (Or.inr (by omega)) (Or.inr (by omega))
    · have hc' : (!st.file.eof && st.file.good) = false := by simpa using hc
      rw [loadLoop_done env _ st hc', loadLoop_done env _ st hc']

/-- One iteration on a stream that starts with a well-formed entry. -/
theorem loadStep_entry (e : Entry) (st : LoadState F) (hs : Ready st.file) {r : List Char}
    (he : eatTokens e.tokens st.file.rest = some r) (hok : e.ok env = true) :
    (!st.file.eof && st.file.good) = true ∧ r.length < st.file.rest.length ∧
      loadStep env st =
        ⟨⟨r, r.isEmpty, false⟩, st.positionData ++ vertexData env [e],
          st.triangleData ++ faceData [e]⟩ := by
  cases e with
  | other t =>
    simp only [Entry.tokens] at he
    obtain ⟨r1, h1, h2⟩ := eatTokens_cons he
    simp only [eatTokens, Option.some.injEq] at h2
    subst h2
    simp only [Entry.ok, Bool.and_eq_true, decide_eq_true_eq] at hok
    refine ⟨hs.running h1, eatToken_length h1, ?_⟩
    rw [loadStep_other env st hs h1 hok.1 hok.2]
    simp [vertexData, faceData]
  | vertex x y z =>
    simp only [Entry.tokens] at he
    obtain ⟨r1, h1, he⟩ := eatTokens_cons he
    obtain ⟨r2, h2, he⟩ := eatTokens_cons he
    obtain ⟨r3, h3, he⟩ := eatTokens_cons he
    obtain ⟨r4, h4, he⟩ := eatTokens_cons he
    simp only [eatTokens, Option.some.injEq] at he
    subst he
    simp only [Entry.ok, Bool.and_eq_true] at hok
    have hl1 := eatToken_length h1
    have hl2 := eatToken_length h2
    have hl3 := eatToken_length h3
    have hl4 := eatToken_length h4
    refine ⟨hs.running h1, by omega, ?_⟩
    rw [loadStep_vertex env st hs h1 h2 h3 h4 hok.1.1 hok.1.2 hok.2]
    simp [vertexData, faceData]
  | face i j k =>
    simp only [Entry.tokens] at he
    obtain ⟨r1, h1, he⟩ := eatTokens_cons he
    obtain ⟨r2, h2, he⟩ := eatTokens_cons he
    obtain ⟨r3, h3, he⟩ := eatTokens_cons he
    obtain ⟨r4, h4, he⟩ := eatTokens_cons he
    simp only [eatTokens, Option.some.injEq] at he
    subst he
    simp only [Entry.ok, Bool.and_eq_true] at hok
    have hl1 := eatToken_length h1
    have hl2 := eatToken_length h2
    have hl3 := eatToken_length h3
    have hl4 := eatToken_length h4
    refine ⟨hs.running h1, by omega, ?_⟩
    rw [loadStep_face env st hs h1 h2 h3 h4 hok.1.1 hok.1.2 hok.2]
    simp [vertexData, faceData]

theorem eatTokens_split {a b : List (List Char)} {x r : List Char}
    (h : eatTokens (a ++ b) x = some r) :
    ∃ r1, eatTokens a x = some r1 ∧ eatTokens b r1 = some r := by
  rw [eatTokens_append_tokens] at h
  simpa only [Option.bind_eq_some] using h

/-- The loop on a stream that starts with well-formed entries: after them it
continues from the text that follows, with the data of the entries appended. -/
theorem loadLoop_through (es : List Entry) :
    ∀ (e : Entry) (st : LoadState F) (fuel : Nat) (r : List Char), Ready st.file →
      eatTokens (entryTokens (e :: es)) st.file.rest = some r →
      (e :: es).all (Entry.ok env) = true → st.file.rest.length < fuel →
      loadLoop env fuel st =
        loadLoop env (r.length + 1)
          ⟨⟨r, r.isEmpty, false⟩, st.positionData ++ vertexData env (e :: es),
            st.triangleData ++ faceData (e :: es)⟩ := by
  induction es with
  | nil =>
    intro e st fuel r hs he hok hfuel
    simp only [entryTokens, List.flatMap_cons, List.flatMap_nil, List.append_nil] at he
    simp only [List.all_cons, List.all_nil, Bool.and_true] at hok
    obtain ⟨hrun, hlen, hstep⟩ := loadStep_entry env e st hs he hok
    obtain ⟨n, rfl⟩ : ∃ n, fuel = n + 1 := ⟨fuel - 1, by omega⟩
    rw [loadLoop_succ env n st hrun, hstep]
    exact loadLoop_stable env n (r.length + 1) _ (Or.inr (by simp only; omega))
      (Or.inr (by simp))
  | cons e' es ih =>
    intro e st fuel r hs he hok hfuel
    have he' : eatTokens (e.tokens ++ entryTokens (e' :: es)) st.file.rest = some r := by
      simpa only [entryTokens, List.flatMap_cons] using he
    obtain ⟨r1, h1, h2⟩ := eatTokens_split he'
    rw [List.all_cons, Bool.and_eq_true] at hok
    obtain ⟨hrun, hlen, hstep⟩ := loadStep_entry env e st hs h1 hok.1
    obtain ⟨n, rfl⟩ : ∃ n, fuel = n + 1 := ⟨fuel - 1, by omega⟩
    rw [loadLoop_succ env n st hrun, hstep,
      ih e' _ n r (ready_after r1) h2 hok.2 (by simp only; omega)]
    have hv : vertexData env (e :: e' :: es) = vertexData env [e] ++ vertexData env (e' :: es) :=
      vertexData_append env [e] (e' :: es)
    have hf : faceData (e :: e' :: es) = faceData [e] ++ faceData (e' :: es) :=
      faceData_append [e] (e' :: es)
    simp only [hv, hf, List.append_assoc]

theorem loadStep_congr (st1 st2 : LoadState F) (hs : st1.file.sentry = st2.file.sentry)
    (hp : st1.positionData = st2.positionData) (ht : st1.triangleData = st2.triangleData) :
    loadStep env st1 = loadStep env st2 := by
  unfold loadStep IfStream.extractString
  rw [hs, hp, ht]

theorem sentry_congr (s1 s2 : IfStream) (h1 : s1.good = true) (h2 : s2.good = true)
    (h : s1.rest.dropWhile isspace = s2.rest.dropWhile isspace) : s1.sentry = s2.sentry := by
  unfold IfStream.sentry
  rw [h1, h2, h]
  simp only [if_true]

theorem good_running (s : IfStream) (h : s.good = true) : (!s.eof && s.good) = true := by
  simp only [IfStream.good, Bool.and_eq_true, Bool.not_eq_true'] at h
  simp [IfStream.eof, IfStream.good, h.1, h.2]

/-- Two good streams that differ only in leading whitespace load the same. -/
theorem loadLoop_congr (st1 st2 : LoadState F) (h1 : st1.file.good = true)
    (h2 : st2.file.good = true)
    (h : st1.file.rest.dropWhile isspace = st2.file.rest.dropWhile isspace)
    (hp : st1.positionData = st2.positionData) (ht : st1.triangleData = st2.triangleData) :
    loadLoop env (st1.file.rest.length + 1) st1 = loadLoop env (st2.file.rest.length + 1) st2 := by
  rw [loadLoop_succ env _ st1 (good_running _ h1), loadLoop_succ env _ st2 (good_running _ h2),
    loadStep_congr env st1 st2 (sentry_congr _ _ h1 h2 h) hp ht]
  have hq := loadStep_progress env st2
  have hq1 := loadStep_progress env st1
  rw [loadStep_congr env st1 st2 (sentry_congr _ _ h1 h2 h) hp ht] at hq1
  apply loadLoop_stable
  · rcases hq1 with hq1 | hq1
    · exact Or.inl hq1
    · exact Or.inr hq1
  · rcases hq with hq | hq
    · exact Or.inl hq
    · exact Or.inr hq

theorem entryTokens_cons_ne_nil (e : Entry) (es : List Entry) : entryTokens (e :: es) ≠ [] := by
  cases e <;> simp [entryTokens, Entry.tokens]

/-- Loading a text that begins with whole well-formed entries ending a line
continues, after them, from a good stream that holds what follows. -/
theorem loadDataFromFile_after_entries (es : List Entry) (x y : List Char)
    (h : wellFormed env es x = true) (hx : endsLine x = true) :
    ∃ st : LoadState F, st.file.good = true ∧
      st.file.rest.dropWhile isspace = y.dropWhile isspace ∧
      st.positionData = vertexData env es ∧ st.triangleData = faceData es ∧
      loadDataFromFile env (some (x ++ y)) =
        (loadLoop env (st.file.rest.length + 1) st).map LoadState.outputs := by
  simp only [wellFormed, Bool.and_eq_true] at h
  obtain ⟨htok, hok⟩ := h
  unfold tokenized at htok
  cases he : eatTokens (entryTokens es) x with
  | none => rw [he] at htok; simp at htok
  | some r =>
    rw [he] at htok
    simp only at htok
    cases es with
    | nil =>
      simp only [entryTokens, List.flatMap_nil, eatTokens, Option.some.injEq] at he
      subst he
      exact ⟨⟨⟨x ++ y, false, false⟩, [], []⟩, rfl, dropWhile_append_of_all isspace x y htok,
        rfl, rfl, rfl⟩
    | cons e es =>
      have hr : r ≠ [] := endsLine_rest_ne_nil he (entryTokens_cons_ne_nil e es) hx
      have he2 := eatTokens_append_text (entryTokens (e :: es)) y he (Or.inr hr)
      have hne : r ++ y ≠ [] := by simp [hr]
      refine ⟨⟨⟨r ++ y, (r ++ y).isEmpty, false⟩, vertexData env (e :: es), faceData (e :: es)⟩,
        ?_, dropWhile_append_of_all isspace r y htok, rfl, rfl, ?_⟩
      · have : (r ++ y).isEmpty = false := by simpa using hne
        simp [IfStream.good, this]
      · unfold loadDataFromFile
        simp only [IfStream.openFile]
        rw [loadLoop_through env es e ⟨⟨x ++ y, false, false⟩, [], []⟩ _ (r ++ y)
          ⟨rfl, by intro h0; simp at h0⟩ he2 hok (by simp)]
        simp

/-- The result of loading a file with a line of other tokens inserted after
whole well-formed entries, and without the line. -/
theorem loadDataFromFile_line_between (es : List Entry) (ls : List (List Char))
    (before line after : List Char) (h1 : wellFormed env es before = true)
    (hb : endsLine before = true) (hl : isLine line = true) (hls : tokenized ls line = true)
    (hno : ls.all (fun t => decide (t ≠ ['v']) && decide (t ≠ ['f'])) = true) :
    loadDataFromFile env (some (before ++ line ++ after)) =
      loadDataFromFile env (some (before ++ after)) := by
  have hw : wellFormed env (es ++ ls.map Entry.other) (before ++ line) = true := by
    simp only [wellFormed, Bool.and_eq_true] at h1 ⊢
    simp only [entryTokens_append, List.all_append, entryTokens_others, Bool.and_eq_true]
    refine ⟨tokenized_append h1.1 hb hls, h1.2, ?_⟩
    rw [List.all_eq_true] at hno ⊢
    intro e he
    obtain ⟨t, ht, rfl⟩ := List.mem_map.mp he
    exact hno t ht
  obtain ⟨st1, g1, d1, p1, t1, e1⟩ := loadDataFromFile_after_entries env es before after h1 hb
  obtain ⟨st2, g2, d2, p2, t2, e2⟩ := loadDataFromFile_after_entries env
    (es ++ ls.map Entry.other) (before ++ line) after hw (endsLine_append before line hl)
  obtain ⟨o1, o2, -, -⟩ := others_data env ls
  rw [e1, e2, loadLoop_congr env st2 st1 g2 g1 (by rw [d1, d2])
    (by rw [p1, p2, vertexData_append, o1, List.append_nil])
    (by rw [t1, t2, faceData_append, o2, List.append_nil])]

end InsertionGeneral

/-- C3 (amended): after whole well-formed entries that end a line, inserting a
line none of whose tokens is `v` or `f` leaves what `loadDataFromFile` returns
(positions, triangles and both counts) unchanged, whatever text follows. -/
theorem loadDataFromFile_insert_line {F : Type} (env : LoaderEnv F) (es : List Entry)
    (ls : List (List Char)) (before line after : List Char)
    (h1 : wellFormed env es before = true) (hb : endsLine before = true)
    (hl : isLine line = true) (hls : tokenized ls line = true)
    (hno : ls.all (fun t => decide (t ≠ ['v']) && decide (t ≠ ['f'])) = true) :
    ∃ mesh, loadDataFromFile env (some (before ++ after)) = some mesh ∧
      loadDataFromFile env (some (before ++ line ++ after)) = some mesh := by
  obtain ⟨mesh, hm, -, -⟩ := loadDataFromFile_total env (some (before ++ after))
  exact ⟨mesh, hm, by
    rw [loadDataFromFile_line_between env es ls before line after h1 hb hl hls hno, hm]⟩

/-- C3 (amended) at a concrete file: a comment line between a `v` line and an
`f` line. -/
theorem loadDataFromFile_insert_line_witness :
    wellFormed symLoader [.vertex ['0'] ['0'] ['0']] "v 0 0 0\n".toList = true ∧
    endsLine "v 0 0 0\n".toList = true ∧ isLine "# one face\n".toList = true ∧
    tokenized ["#".toList, "one".toList, "face".toList] "# one face\n".toList = true ∧
    ∃ mesh, loadDataFromFile symLoader (some ("v 0 0 0\n".toList ++ "f 1 1 1\n".toList)) =
        some mesh ∧
      loadDataFromFile symLoader
        (some ("v 0 0 0\n".toList ++ "# one face\n".toList ++ "f 1 1 1\n".toList)) = some mesh :=
  ⟨by decide, by decide, by decide, by decide,
    loadDataFromFile_insert_line symLoader [.vertex ['0'] ['0'] ['0']]
      ["#".toList, "one".toList, "face".toList]
      _ _ _ (by decide) (by decide) (by decide) (by decide) (by decide)⟩

/-- C3 as stated fails. A line whose leading token is `#` but which holds a `v`
token adds a position; and a line without any `v` or `f` token, put between
the numbers of a `v` entry that spans two lines, changes the position loaded. -/
theorem insert_line_counterexample :
    (endsLine "v 0 0 0\n".toList = true ∧ isLine "# v 1 2 3\n".toList = true ∧
      leadingToken "# v 1 2 3\n".toList = ['#'] ∧
      (loadDataFromFile symLoader (some ("v 0 0 0\n".toList ++ []))).map Mesh.positions =
        some [(.field ['0'], .field ['0'], .field ['0'])] ∧
      (loadDataFromFile symLoader
        (some ("v 0 0 0\n".toList ++ "# v 1 2 3\n".toList ++ []))).map Mesh.positions =
        some [(.field ['0'], .field ['0'], .field ['0']),
          (.field ['1'], .field ['2'], .field ['3'])]) ∧
    (endsLine "v 1 2\n".toList = true ∧ isLine "x\n".toList = true ∧
      leadingToken "x\n".toList = ['x'] ∧
      (loadDataFromFile symLoader (some ("v 1 2\n".toList ++ "3\n".toList))).map Mesh.positions =
        some [(.field ['1'], .field ['2'], .field ['3'])] ∧
      (loadDataFromFile symLoader
        (some ("v 1 2\n".toList ++ "x\n".toList ++ "3\n".toList))).map Mesh.positions =
        some [(.field ['1'], .field ['2'], .lit "0")]) := by
  decide

section LoaderClaims

end LoaderClaims

section Context

variable {F M : Type}

theorem glUseProgram_keeps (p : Nat) (gl : GLState F M) :
    (gl.glUseProgram p).texBuffer = gl.texBuffer ∧
      (gl.glUseProgram p).bufferSize = gl.bufferSize ∧
      (gl.glUseProgram p).bufferData = gl.bufferData ∧
      (gl.glUseProgram p).boundTexture = gl.boundTexture ∧
      (gl.glUseProgram p).activeTexture = gl.activeTexture ∧
      (gl.glUseProgram p).uniformMatrix = gl.uniformMatrix ∧
      (gl.glUseProgram p).programs = gl.programs := by
  unfold GLState.glUseProgram
  split
  · exact ⟨rfl, rfl, rfl, rfl, rfl, rfl, rfl⟩
  · split
    · split
      · exact ⟨rfl, rfl, rfl, rfl, rfl, rfl, rfl⟩
      · exact ⟨rfl, rfl, rfl, rfl, rfl, rfl, rfl⟩
    · exact ⟨rfl, rfl, rfl, rfl, rfl, rfl, rfl⟩

theorem glUniformMatrix4fv_keeps (l : Int) (m : M) (gl : GLState F M) :
    (gl.glUniformMatrix4fv l m).texBuffer = gl.texBuffer ∧
      (gl.glUniformMatrix4fv l m).bufferSize = gl.bufferSize ∧
      (gl.glUniformMatrix4fv l m).bufferData = gl.bufferData ∧
      (gl.glUniformMatrix4fv l m).boundTexture = gl.boundTexture ∧
      (gl.glUniformMatrix4fv l m).activeTexture = gl.activeTexture ∧
      (gl.glUniformMatrix4fv l m).currentProgram = gl.currentProgram ∧
      (gl.glUniformMatrix4fv l m).programs = gl.programs := by
  unfold GLState.glUniformMatrix4fv
  split
  · exact ⟨rfl, rfl, rfl, rfl, rfl, rfl, rfl⟩
  · exact ⟨rfl, rfl, rfl, rfl, rfl, rfl, rfl⟩

theorem glUniformMatrix4fv_unbound (l : Int) (m : M) (gl : GLState F M)
    (h : gl.currentProgram = 0) : gl.glUniformMatrix4fv l m = gl := by
  unfold GLState.glUniformMatrix4fv
  rw [if_pos (Or.inl h)]

theorem glUniformMatrix4fv_bound (l : Int) (m : M) (gl : GLState F M)
    (h : gl.currentProgram ≠ 0) (hl : l ≠ -1) :
    (gl.glUniformMatrix4fv l m).uniformMatrix gl.currentProgram l = some m := by
  unfold GLState.glUniformMatrix4fv
  rw [if_neg (by simp [h, hl])]
  simp

end Context

section Frames

variable {F M : Type} (env : Env F M)

/-- The context in which `renderScene` issues its draw call. -/
theorem frame_draws (a : App F M) :
    (frame env a).draws = a.draws ++
      [⟨GL_TRIANGLES, 0, 3 * a.numTriangles,
        (((((((update env a).gl.glClear).glUseProgram a.program).glActiveTexture 1).glBindTexture
          a.positionBufferTexture).glActiveTexture 2).glBindTexture a.triangleBufferTexture)⟩] :=
  rfl

theorem frame_globals (a : App F M) :
    (frame env a).numTriangles = a.numTriangles ∧ (frame env a).program = a.program ∧
      (frame env a).uniMVP = a.uniMVP ∧
      (frame env a).positionBuffer = a.positionBuffer ∧
      (frame env a).triangleBuffer = a.triangleBuffer ∧
      (frame env a).positionBufferTexture = a.positionBufferTexture ∧
      (frame env a).triangleBufferTexture = a.triangleBufferTexture ∧
      (frame env a).proj = a.proj ∧ (frame env a).trans = a.trans ∧
      (frame env a).cout = a.cout :=
  ⟨rfl, rfl, rfl, rfl, rfl, rfl, rfl, rfl, rfl, rfl⟩

theorem update_gl (a : App F M) :
    (update env a).gl = a.gl.glUniformMatrix4fv a.uniMVP (update env a).MVP := rfl

theorem frame_gl (a : App F M) :
    (frame env a).gl =
      (((((((update env a).gl.glClear).glUseProgram a.program).glActiveTexture 1).glBindTexture
        a.positionBufferTexture).glActiveTexture 2).glBindTexture a.triangleBufferTexture) :=
  rfl

theorem frame_context (a : App F M) :
    (frame env a).gl.texBuffer = a.gl.texBuffer ∧ (frame env a).gl.bufferSize = a.gl.bufferSize ∧
      (frame env a).gl.bufferData = a.gl.bufferData ∧
      (frame env a).gl.programs = a.gl.programs := by
  obtain ⟨u1, u2, u3, -, -, -, u7⟩ := glUniformMatrix4fv_keeps (F := F) a.uniMVP
    (update env a).MVP a.gl
  obtain ⟨p1, p2, p3, -, -, -, p7⟩ := glUseProgram_keeps a.program (update env a).gl.glClear
  rw [frame_gl]
  simp only [GLState.glBindTexture, GLState.glActiveTexture]
  rw [p1, p2, p3, p7]
  simp only [GLState.glClear]
  rw [update_gl]
  exact ⟨u1, u2, u3, u7⟩

/-- What `initBuffers` establishes from the loaded mesh, kept by every frame. -/
theorem mainLoop_keeps (n : Nat) :
    ∀ a : App F M,
      (mainLoop env n a).numTriangles = a.numTriangles ∧
      (mainLoop env n a).program = a.program ∧
      (mainLoop env n a).uniMVP = a.uniMVP ∧
      (mainLoop env n a).positionBuffer = a.positionBuffer ∧
      (mainLoop env n a).triangleBuffer = a.triangleBuffer ∧
      (mainLoop env n a).positionBufferTexture = a.positionBufferTexture ∧
      (mainLoop env n a).triangleBufferTexture = a.triangleBufferTexture ∧
      (mainLoop env n a).gl.texBuffer = a.gl.texBuffer ∧
      (mainLoop env n a).gl.bufferSize = a.gl.bufferSize ∧
      (mainLoop env n a).gl.bufferData = a.gl.bufferData ∧
      (mainLoop env n a).cout = a.cout := by
  induction n with
  | zero => intro a; exact ⟨rfl, rfl, rfl, rfl, rfl, rfl, rfl, rfl, rfl, rfl, rfl⟩
  | succ n ih =>
    intro a
    obtain ⟨h1, h2, h3, h4, h5, h6, h7, h8, h9, h10, h11⟩ := ih (frame env a)
    obtain ⟨g1, g2, g3, g4, g5, g6, g7, -, -, g10⟩ := frame_globals env a
    obtain ⟨c1, c2, c3, -⟩ := frame_context env a
    simp only [mainLoop]
    exact ⟨h1.trans g1, h2.trans g2, h3.trans g3, h4.trans g4, h5.trans g5, h6.trans g6,
      h7.trans g7, h8.trans c1, h9.trans c2, h10.trans c3, h11.trans g10⟩

theorem mainLoop_succ_frame (n : Nat) :
    ∀ a : App F M, mainLoop env (n + 1) a = frame env (mainLoop env n a) := by
  induction n with
  | zero => intro a; rfl
  | succ n ih => intro a; exact ih (frame env a)

end Frames

section Setup

variable {F M : Type} (env : Env F M)

theorem glCreateShader_resources (ty : ShaderType) (gl : GLState F M) :
    (gl.glCreateShader ty).2.resources = gl.resources := rfl

theorem glShaderSource_resources (n : Nat) (src : List Char) (gl : GLState F M) :
    (gl.glShaderSource n src).resources = gl.resources := by
  unfold GLState.glShaderSource
  split <;> rfl

theorem glCompileShader_resources (drv : Driver) (n : Nat) (gl : GLState F M) :
    (gl.glCompileShader drv n).resources = gl.resources := by
  unfold GLState.glCompileShader
  split <;> rfl

theorem glDeleteShader_resources (n : Nat) (gl : GLState F M) :
    (gl.glDeleteShader n).resources = gl.resources := rfl

theorem glCreateProgram_resources (gl : GLState F M) :
    (gl.glCreateProgram).2.resources = gl.resources := rfl

theorem glAttachShader_resources (p n : Nat) (gl : GLState F M) :
    (gl.glAttachShader p n).resources = gl.resources := by
  unfold GLState.glAttachShader
  split <;> rfl

theorem glLinkProgram_resources (drv : Driver) (p : Nat) (gl : GLState F M) :
    (gl.glLinkProgram drv p).resources = gl.resources := by
  unfold GLState.glLinkProgram
  split <;> rfl

theorem createShader_keeps (src : List Char) (ty : ShaderType) (a : App F M) :
    (createShader env src ty a).2.gl.resources = a.gl.resources ∧
      (createShader env src ty a).2.draws = a.draws ∧
      (createShader env src ty a).2.numTriangles = a.numTriangles := by
  unfold createShader
  simp only
  split
  · refine ⟨?_, rfl, rfl⟩
    simp only [glDeleteShader_resources, glCompileShader_resources, glShaderSource_resources,
      glCreateShader_resources]
  · refine ⟨?_, rfl, rfl⟩
    simp only [glCompileShader_resources, glShaderSource_resources, glCreateShader_resources]

theorem readShader_keeps (name : String) (file : Option (List Char)) (a : App F M) :
    (readShader name file a).2.gl = a.gl ∧ (readShader name file a).2.draws = a.draws := by
  cases file <;> exact ⟨rfl, rfl⟩

theorem programSetup_keeps (a : App F M) :
    (programSetup env a).gl.resources = a.gl.resources ∧ (programSetup env a).draws = a.draws := by
  unfold programSetup
  simp only [glLinkProgram_resources, glAttachShader_resources, glCreateProgram_resources]
  obtain ⟨c1, c2, -⟩ := createShader_keeps env
    (readShader "FragmentShader.glsl" env.fragmentShaderFile
      (readShader "VertexShader.glsl" env.vertexShaderFile { a with gl := a.gl.glEnable }).2).1
    ShaderType.GL_FRAGMENT_SHADER
    (createShader env
      (readShader "VertexShader.glsl" env.vertexShaderFile { a with gl := a.gl.glEnable }).1
      ShaderType.GL_VERTEX_SHADER
      (readShader "FragmentShader.glsl" env.fragmentShaderFile
        (readShader "VertexShader.glsl" env.vertexShaderFile
          { a with gl := a.gl.glEnable }).2).2).2
  obtain ⟨d1, d2, -⟩ := createShader_keeps env
    (readShader "VertexShader.glsl" env.vertexShaderFile { a with gl := a.gl.glEnable }).1
    ShaderType.GL_VERTEX_SHADER
    (readShader "FragmentShader.glsl" env.fragmentShaderFile
      (readShader "VertexShader.glsl" env.vertexShaderFile { a with gl := a.gl.glEnable }).2).2
  obtain ⟨e1, e2⟩ := readShader_keeps "FragmentShader.glsl" env.fragmentShaderFile
    (readShader "VertexShader.glsl" env.vertexShaderFile { a with gl := a.gl.glEnable }).2
  obtain ⟨f1, f2⟩ := readShader_keeps "VertexShader.glsl" env.vertexShaderFile
    { a with gl := a.gl.glEnable }
  refine ⟨?_, ?_⟩
  · rw [c1, d1, e1, f1]
    rfl
  · rw [c2, d2, e2, f2]

theorem init_eq (a : App F M) :
    init env a =
      match initBuffers env (programSetup env a) with
      | none => none
      | some b =>
        some { b with
          view := env.glm.lookAt (env.glm.lit "0.0f", env.glm.lit "0.0f", env.glm.lit "-1.0f")
            (env.glm.lit "0.0f", env.glm.lit "0.0f", env.glm.lit "0.0f")
            (env.glm.lit "0.0f", env.glm.lit "1.0f", env.glm.lit "0.0f")
          proj := env.glm.perspective (env.glm.lit "45.0f")
            (env.glm.div (env.glm.lit "800.0f") (env.glm.lit "600.0f"))
            (env.glm.lit "0.1f") (env.glm.lit "1000.0f")
          trans := env.glm.translate b.trans
            (env.glm.lit "0.0", env.glm.lit "0.0", env.glm.lit "0.0") } :=
  rfl

/-- What `initBuffers` leaves behind, given the mesh the loader returned. -/
theorem initBuffers_spec (a : App F M) (mesh : Mesh F)
    (hm : loadDataFromFile env.loader env.modelFile = some mesh)
    (hlp : mesh.positionData.length = 3 * mesh.nPositionsLoaded)
    (hlt : mesh.triangleData.length = 3 * mesh.nTrianglesLoaded)
    (hb : a.gl.nextBuffer ≠ 0) :
    ∃ b, initBuffers env a = some b ∧
      b.numTriangles = (mesh.nTrianglesLoaded : Int) ∧
      b.positionBuffer = a.gl.nextBuffer ∧ b.triangleBuffer = a.gl.nextBuffer + 1 ∧
      b.positionBufferTexture = a.gl.nextTexture ∧
      b.triangleBufferTexture = a.gl.nextTexture + 1 ∧
      b.gl.texBuffer b.positionBufferTexture = some (TexFormat.RGB32F, b.positionBuffer) ∧
      b.gl.texBuffer b.triangleBufferTexture = some (TexFormat.R32I, b.triangleBuffer) ∧
      b.gl.bufferSize b.positionBuffer = 12 * mesh.nPositionsLoaded ∧
      b.gl.bufferData b.positionBuffer = mesh.positionData.map Word.float ∧
      b.gl.bufferSize b.triangleBuffer = 12 * mesh.nTrianglesLoaded ∧
      b.gl.bufferData b.triangleBuffer = mesh.triangleData.map Word.int ∧
      b.gl.currentProgram = a.gl.currentProgram ∧ b.gl.uniformMatrix = a.gl.uniformMatrix ∧
      b.draws = a.draws ∧ b.cout = a.cout ∧ b.program = a.program ∧ b.uniMVP = a.uniMVP := by
  have hp4 : 4 * 3 * mesh.nPositionsLoaded / 4 = (mesh.positionData.map Word.float).length := by
    rw [List.length_map, hlp]; omega
  have ht4 : 4 * 3 * mesh.nTrianglesLoaded / 4 =
      (mesh.triangleData.map (Word.int (F := F))).length := by
    rw [List.length_map, hlt]; omega
  unfold initBuffers
  simp only [hm]
  refine ⟨_, rfl, rfl, rfl, rfl, rfl, rfl, ?_, ?_, ?_, ?_, ?_, ?_, ?_, ?_, rfl, rfl, rfl, rfl⟩
  all_goals
    simp only [GLState.glTexBuffer, GLState.glBindTexture, GLState.glBufferData,
      GLState.glBindBuffer, GLState.glGenTextures2, GLState.glGenBuffers2, hb, if_false,
      if_true, Nat.add_one_ne_zero, hp4, ht4, List.take_length]
  all_goals simp

/-- The state `init` returns on the fresh program state. -/
theorem init_spec :
    ∃ (a0 : App F M) (mesh : Mesh F), init env (App.initial env) = some a0 ∧
      loadDataFromFile env.loader env.modelFile = some mesh ∧
      mesh.positionData.length = 3 * mesh.nPositionsLoaded ∧
      mesh.triangleData.length = 3 * mesh.nTrianglesLoaded ∧
      a0.numTriangles = (mesh.nTrianglesLoaded : Int) ∧
      a0.positionBuffer = 1 ∧ a0.triangleBuffer = 2 ∧
      a0.positionBufferTexture = 1 ∧ a0.triangleBufferTexture = 2 ∧
      a0.gl.texBuffer a0.positionBufferTexture = some (TexFormat.RGB32F, a0.positionBuffer) ∧
      a0.gl.texBuffer a0.triangleBufferTexture = some (TexFormat.R32I, a0.triangleBuffer) ∧
      a0.gl.bufferSize a0.positionBuffer = 12 * mesh.nPositionsLoaded ∧
      a0.gl.bufferData a0.positionBuffer = mesh.positionData.map Word.float ∧
      a0.gl.bufferSize a0.triangleBuffer = 12 * mesh.nTrianglesLoaded ∧
      a0.gl.bufferData a0.triangleBuffer = mesh.triangleData.map Word.int ∧
      a0.gl.currentProgram = 0 ∧ a0.gl.uniformMatrix = (fun _ _ => none) ∧
      a0.draws = [] ∧ a0.cout = (programSetup env (App.initial env)).cout := by
  obtain ⟨mesh, hm, hlp, hlt⟩ := loadDataFromFile_total env.loader env.modelFile
  obtain ⟨hres, hdraws⟩ := programSetup_keeps env (App.initial env)
  have hnb : (programSetup env (App.initial env)).gl.nextBuffer = 1 :=
    congrArg Resources.nextBuffer hres
  have hnt : (programSetup env (App.initial env)).gl.nextTexture = 1 :=
    congrArg Resources.nextTexture hres
  have hcp : (programSetup env (App.initial env)).gl.currentProgram = 0 :=
    congrArg Resources.currentProgram hres
  have hum : (programSetup env (App.initial env)).gl.uniformMatrix = (fun _ _ => none) :=
    congrArg Resources.uniformMatrix hres
  obtain ⟨b, hb, b1, b2, b3, b4, b5, b6, b7, b8, b9, b10, b11, b12, b13, b14, b15, -, -⟩ :=
    initBuffers_spec env (programSetup env (App.initial env)) mesh hm hlp hlt
      (by rw [hnb]; decide)
  have hinit := init_eq env (App.initial env)
  rw [hb] at hinit
  simp only at hinit
  refine ⟨_, mesh, hinit, hm, hlp, hlt, b1, ?_, ?_, ?_, ?_, b6, b7, b8, b9, b10,
    b11, ?_, ?_, ?_, b15⟩
  · exact b2.trans hnb
  · exact b3.trans (by rw [hnb])
  · exact b4.trans hnt
  · exact b5.trans (by rw [hnt])
  · exact b12.trans hcp
  · exact b13.trans hum
  · exact b14.trans hdraws

end Setup

section ProgramClaims

variable {F M : Type}

theorem initBuffers_numTriangles (env : Env F M) (a : App F M) (mesh : Mesh F)
    (hm : loadDataFromFile env.loader env.modelFile = some mesh) :
    ∃ b, initBuffers env a = some b ∧ b.numTriangles = (mesh.nTrianglesLoaded : Int) ∧
      b.cout = a.cout := by
  unfold initBuffers
  simp only [hm]
  exact ⟨_, rfl, rfl, rfl⟩

theorem main_eq (env : Env F M) (a0 : App F M) (h : init env (App.initial env) = some a0)
    (n : Nat) : main env n = some (mainLoop env n a0) := by
  unfold main
  rw [h]
  rfl

theorem loadDataFromFile_unreadable (env : LoaderEnv F) (disk : Option (List Char))
    (h : disk = none ∨ disk = some []) :
    loadDataFromFile env disk = some ⟨[], 0, [], 0, false⟩ := by
  rcases h with h | h
  · rw [h]; exact loadDataFromFile_none env
  · rw [h]; exact loadDataFromFile_empty env

/-- C4 at the failing input: when the model file is empty or cannot be opened,
`loadDataFromFile` reaches its copy-out with both vectors empty, so
`&positionData[0]` and `&triangleData[0]` are taken out of range
(`subscriptsInRange` is false), which is undefined and stops the program under
a checked standard library. Where the library does not check, the empty mesh
with both counts 0 results, `initBuffers` sets `numTriangles` to 0, and every
`renderScene` issues its draw call over zero vertices. -/
theorem empty_model_subscripts_out_of_range (env : Env F M)
    (h : env.modelFile = none ∨ env.modelFile = some []) :
    loadDataFromFile env.loader env.modelFile = some ⟨[], 0, [], 0, false⟩ ∧
    (∀ a : App F M, ∃ b, initBuffers env a = some b ∧ b.numTriangles = 0) ∧
    ∃ a0, init env (App.initial env) = some a0 ∧ a0.numTriangles = 0 ∧
      ∀ n, main env n = some (mainLoop env n a0) ∧
        (update env (mainLoop env n a0)).draws = (mainLoop env n a0).draws ∧
        ∃ ctx, (renderScene (update env (mainLoop env n a0))).draws =
          (update env (mainLoop env n a0)).draws ++ [⟨GL_TRIANGLES, 0, 0, ctx⟩] := by
  have hm := loadDataFromFile_unreadable env.loader env.modelFile h
  refine ⟨hm, ?_, ?_⟩
  · intro a
    obtain ⟨b, hb, hn, -⟩ := initBuffers_numTriangles env a _ hm
    exact ⟨b, hb, by simpa using hn⟩
  · obtain ⟨a0, mesh, hinit, hload, -, -, hnum, -⟩ := init_spec env
    rw [hm] at hload
    have hmesh : mesh = ⟨[], 0, [], 0, false⟩ := (Option.some.inj hload).symm
    subst hmesh
    have h0 : a0.numTriangles = 0 := by simpa using hnum
    refine ⟨a0, hinit, h0, fun n => ⟨main_eq env a0 hinit n, rfl, ?_⟩⟩
    obtain ⟨k1, -⟩ := mainLoop_keeps env n a0
    have hd := frame_draws env (mainLoop env n a0)
    rw [k1, h0] at hd
    exact ⟨_, hd⟩

/-- C5 at the failing input: with a model file that cannot be opened the loader
returns the empty mesh and `initBuffers`, which runs it, leaves `std::cout` as
it was, while `readShader` on a file that cannot be read writes a message. -/
theorem loader_writes_no_diagnostic (env : Env F M) (a : App F M) :
    loadDataFromFile env.loader none = some ⟨[], 0, [], 0, false⟩ ∧
    (initBuffers { env with modelFile := none } a).map (fun b => b.cout) = some a.cout ∧
    (readShader "VertexShader.glsl" none a).2.cout =
      a.cout ++ "Can't read file: VertexShader.glsl".toList ++ ['\n'] := by
  refine ⟨loadDataFromFile_none env.loader, ?_, ?_⟩
  · obtain ⟨b, hb, -, hc⟩ := initBuffers_numTriangles { env with modelFile := none } a _
      (loadDataFromFile_none env.loader)
    rw [hb]
    simp [hc]
  · simp [readShader]

/-- C6 (amended): `createShader` always returns the handle the driver created.
When the driver reports compile status false, the driver's log (at most 1023
characters) has been written to the output stream after the fixed heading and
the created shader has been deleted, so the returned handle names no shader
object; when the status is true, the returned handle names the compiled shader
and nothing is written. -/
theorem createShader_returns_created_handle (env : Env F M) (sourceCode : List Char)
    (shaderType : ShaderType) (a : App F M) :
    (createShader env sourceCode shaderType a).1 = (a.gl.glCreateShader shaderType).1 ∧
    (createShader env sourceCode shaderType a).2.cout =
      (if env.driver.compiles shaderType sourceCode = true then a.cout
        else a.cout ++ "The shader failed to compile with the error:".toList ++ ['\n'] ++
          (env.driver.compileLog shaderType sourceCode).take 1023 ++ ['\n']) ∧
    (createShader env sourceCode shaderType a).2.gl.shaders
        (createShader env sourceCode shaderType a).1 =
      (if env.driver.compiles shaderType sourceCode = true then
        some ⟨shaderType, sourceCode, true, env.driver.compileLog shaderType sourceCode⟩
        else none) := by
  cases hc : env.driver.compiles shaderType sourceCode <;>
    simp [createShader, GLState.glCreateShader, GLState.glShaderSource,
      GLState.glCompileShader, GLState.glGetShaderiv, GLState.glGetShaderInfoLog,
      GLState.glDeleteShader, hc]

/-- C7: in every frame `renderScene` issues exactly one `glDrawArrays` call, of
mode `GL_TRIANGLES`, starting at vertex 0, over 3 × `numTriangles` vertices,
where `numTriangles` is the triangle count `loadDataFromFile` returned during
`initBuffers`; at that call the position buffer texture is bound on unit 1 and
the triangle-index buffer texture on unit 2. -/
theorem renderScene_draws_loaded_triangles (env : Env F M) :
    ∃ (a0 : App F M) (mesh : Mesh F), init env (App.initial env) = some a0 ∧
      loadDataFromFile env.loader env.modelFile = some mesh ∧
      ∀ n, main env n = some (mainLoop env n a0) ∧
        (mainLoop env n a0).numTriangles = (mesh.nTrianglesLoaded : Int) ∧
        (update env (mainLoop env n a0)).draws = (mainLoop env n a0).draws ∧
        ∃ d, (renderScene (update env (mainLoop env n a0))).draws =
            (update env (mainLoop env n a0)).draws ++ [d] ∧
          d.mode = GL_TRIANGLES ∧ d.first = 0 ∧ d.count = 3 * (mesh.nTrianglesLoaded : Int) ∧
          d.ctx.boundTexture 1 = a0.positionBufferTexture ∧
          d.ctx.boundTexture 2 = a0.triangleBufferTexture ∧
          d.ctx.texBuffer a0.positionBufferTexture = some (TexFormat.RGB32F, a0.positionBuffer) ∧
          d.ctx.texBuffer a0.triangleBufferTexture = some (TexFormat.R32I, a0.triangleBuffer) ∧
          d.ctx.bufferData a0.positionBuffer = mesh.positionData.map Word.float ∧
          d.ctx.bufferData a0.triangleBuffer = mesh.triangleData.map Word.int := by
  obtain ⟨a0, mesh, hinit, hload, -, -, hnum, -, -, -, -, t1, t2, -, d1, -, d2, -⟩ :=
    init_spec env
  refine ⟨a0, mesh, hinit, hload, fun n => ?_⟩
  obtain ⟨k1, -, -, k4, k5, k6, k7, -, -, -, -⟩ := mainLoop_keeps env n a0
  obtain ⟨-, -, -, -, -, -, -, j8, -, j10, -⟩ := mainLoop_keeps env (n + 1) a0
  have hgl := mainLoop_succ_frame env n a0
  have hfr : (frame env (mainLoop env n a0)).gl.texBuffer = a0.gl.texBuffer ∧
      (frame env (mainLoop env n a0)).gl.bufferData = a0.gl.bufferData := by
    rw [hgl] at j8 j10
    exact ⟨j8, j10⟩
  refine ⟨main_eq env a0 hinit n, k1.trans hnum, rfl, _, frame_draws env _, rfl, rfl, ?_, ?_,
    ?_, ?_, ?_, ?_, ?_⟩
  · rw [k1, hnum]
  · rw [k6]
    simp [GLState.glBindTexture, GLState.glActiveTexture]
  · rw [k7]
    simp [GLState.glBindTexture, GLState.glActiveTexture]
  · rw [← frame_gl, hfr.1]; exact t1
  · rw [← frame_gl, hfr.1]; exact t2
  · rw [← frame_gl, hfr.2]; exact d1
  · rw [← frame_gl, hfr.2]; exact d2

end ProgramClaims

section ProgramClaims2

variable {F M : Type}

/-- C4 for a model file that cannot be opened. -/
theorem empty_model_subscripts_out_of_range_witness :
    (unreadableEnv.modelFile = none ∨ unreadableEnv.modelFile = some []) ∧
    loadDataFromFile unreadableEnv.loader unreadableEnv.modelFile =
      some ⟨[], 0, [], 0, false⟩ ∧
    (∀ a : App SymFloat SymMat, ∃ b, initBuffers unreadableEnv a = some b ∧
      b.numTriangles = 0) ∧
    ∃ a0, init unreadableEnv (App.initial unreadableEnv) = some a0 ∧ a0.numTriangles = 0 ∧
      ∀ n, main unreadableEnv n = some (mainLoop unreadableEnv n a0) ∧
        (update unreadableEnv (mainLoop unreadableEnv n a0)).draws =
          (mainLoop unreadableEnv n a0).draws ∧
        ∃ ctx, (renderScene (update unreadableEnv (mainLoop unreadableEnv n a0))).draws =
          (update unreadableEnv (mainLoop unreadableEnv n a0)).draws ++
            [⟨GL_TRIANGLES, 0, 0, ctx⟩] :=
  ⟨Or.inl rfl, empty_model_subscripts_out_of_range unreadableEnv (Or.inl rfl)⟩

/-- C6 as stated fails: with a driver that reports compile status false,
`createShader` returns the very handle the driver created, the same value it
returns when the driver accepts the shader. -/
theorem createShader_sentinel_counterexample :
    rejectingEnv.driver.compiles ShaderType.GL_VERTEX_SHADER "void main(".toList = false ∧
    (createShader rejectingEnv "void main(".toList ShaderType.GL_VERTEX_SHADER
      (App.initial rejectingEnv)).1 =
      ((App.initial rejectingEnv).gl.glCreateShader ShaderType.GL_VERTEX_SHADER).1 ∧
    (createShader rejectingEnv "void main(".toList ShaderType.GL_VERTEX_SHADER
      (App.initial rejectingEnv)).1 =
      (createShader scenarioEnv "void main(".toList ShaderType.GL_VERTEX_SHADER
        (App.initial scenarioEnv)).1 := by
  decide

/-- C7 at a file with one face: every frame draws exactly 3 vertices. -/
theorem renderScene_draws_loaded_triangles_witness :
    ∃ a0, init scenarioEnv (App.initial scenarioEnv) = some a0 ∧
      ∀ n, ∃ d, (renderScene (update scenarioEnv (mainLoop scenarioEnv n a0))).draws =
          (update scenarioEnv (mainLoop scenarioEnv n a0)).draws ++ [d] ∧
        d.mode = GL_TRIANGLES ∧ d.first = 0 ∧ d.count = 3 ∧
        d.ctx.boundTexture 1 = a0.positionBufferTexture ∧
        d.ctx.boundTexture 2 = a0.triangleBufferTexture := by
  obtain ⟨a0, mesh, hinit, hload, h⟩ := renderScene_draws_loaded_triangles scenarioEnv
  have hw : loadDataFromFile scenarioEnv.loader scenarioEnv.modelFile =
      some ⟨vertexData scenarioEnv.loader scenarioEntries, vertexCount scenarioEntries,
        faceData scenarioEntries, faceCount scenarioEntries,
        !(vertexData scenarioEnv.loader scenarioEntries).isEmpty &&
          !(faceData scenarioEntries).isEmpty⟩ :=
    loadDataFromFile_wellFormed scenarioEnv.loader scenarioEntries scenarioFile (by decide)
  rw [hw] at hload
  have hmesh := Option.some.inj hload
  subst hmesh
  refine ⟨a0, hinit, fun n => ?_⟩
  obtain ⟨-, -, -, d, hd, h1, h2, h3, h4, h5, -⟩ := h n
  exact ⟨d, hd, h1, h2, h3, h4, h5⟩

/-- C8 at the failing input, the first iteration of the main loop: whatever the
environment, no program is current when `update` uploads the matrix, so at the
first draw call the `MVP` uniform of the program in use has never been set,
although the global `MVP` holds `proj * view * trans` of this frame. -/
theorem first_draw_before_MVP_upload (env : Env F M) :
    ∃ a0 : App F M, init env (App.initial env) = some a0 ∧
      a0.gl.currentProgram = 0 ∧
      (update env a0).gl.uniformMatrix = a0.gl.uniformMatrix ∧
      (frame env a0).MVP =
        env.glm.matMul (env.glm.matMul a0.proj (frame env a0).view) a0.trans ∧
      ∃ d, (frame env a0).draws = [d] ∧
        d.ctx.uniformMatrix d.ctx.currentProgram a0.uniMVP = none := by
  obtain ⟨a0, mesh, hinit, -, -, -, -, -, -, -, -, -, -, -, -, -, -, hcp, hum, hdr, -⟩ :=
    init_spec env
  have hup : (update env a0).gl = a0.gl := by
    rw [update_gl]
    exact glUniformMatrix4fv_unbound _ _ _ hcp
  have hd := frame_draws env a0
  rw [hdr, List.nil_append] at hd
  refine ⟨a0, hinit, hcp, by rw [hup], rfl, _, hd, ?_⟩
  · obtain ⟨-, -, -, -, -, p6, -⟩ := glUseProgram_keeps a0.program (update env a0).gl.glClear
    simp only [GLState.glBindTexture, GLState.glActiveTexture]
    rw [p6]
    simp only [GLState.glClear]
    rw [hup, hum]

/-- From the second iteration on, with a linked program in use and a valid
location, the draw call sees the matrix uploaded in the same frame. -/
theorem later_draw_after_MVP_upload (env : Env F M) (a : App F M)
    (hcur : a.gl.currentProgram = a.program) (hp : a.program ≠ 0) (hl : a.uniMVP ≠ -1)
    (hlink : ∃ p, a.gl.programs a.program = some p ∧ p.linkStatus = true) :
    (frame env a).gl.currentProgram = a.program ∧
      (frame env a).gl.uniformMatrix a.program a.uniMVP = some (frame env a).MVP := by
  obtain ⟨p, hpp, hpl⟩ := hlink
  obtain ⟨-, -, -, -, -, u6, u7⟩ := glUniformMatrix4fv_keeps (F := F) a.uniMVP
    (update env a).MVP a.gl
  have hset := glUniformMatrix4fv_bound (F := F) a.uniMVP (update env a).MVP a.gl
    (by rw [hcur]; exact hp) hl
  rw [hcur] at hset
  have huse : ((update env a).gl.glClear).glUseProgram a.program =
      { ((update env a).gl.glClear) with currentProgram := a.program } := by
    unfold GLState.glUseProgram
    rw [if_neg hp]
    have : ((update env a).gl.glClear).programs a.program = some p := by
      simp only [GLState.glClear]
      rw [update_gl, u7]
      exact hpp
    simp only [this, hpl, if_true]
  rw [frame_gl, huse]
  simp only [GLState.glBindTexture, GLState.glActiveTexture, GLState.glClear]
  rw [update_gl]
  exact ⟨trivial, hset⟩

/-- C9: after `initBuffers`, and in every later frame, the position buffer
texture has format RGB32F (12 bytes per texel) over a buffer that holds exactly
the 3·k floats the loader produced and exposes exactly k texels, where k is the
number of loaded positions; the triangle-index buffer texture has format R32I
(4 bytes per texel) over a buffer that holds exactly the 3·t integers the
loader produced and exposes exactly 3·t texels, where t is `numTriangles`; and
3·t is the vertex count of the draw call. -/
theorem buffer_textures_cover_loaded_data (env : Env F M) :
    ∃ (a0 : App F M) (mesh : Mesh F), init env (App.initial env) = some a0 ∧
      loadDataFromFile env.loader env.modelFile = some mesh ∧
      ∀ n,
        (mainLoop env n a0).gl.texBuffer (mainLoop env n a0).positionBufferTexture =
          some (TexFormat.RGB32F, (mainLoop env n a0).positionBuffer) ∧
        TexFormat.RGB32F.bytes = 12 ∧
        (mainLoop env n a0).gl.bufferData (mainLoop env n a0).positionBuffer =
          mesh.positionData.map Word.float ∧
        mesh.positionData.length = 3 * mesh.nPositionsLoaded ∧
        (mainLoop env n a0).gl.bufferSize (mainLoop env n a0).positionBuffer =
          4 * mesh.positionData.length ∧
        (mainLoop env n a0).gl.texelCount (mainLoop env n a0).positionBufferTexture =
          mesh.nPositionsLoaded ∧
        (mainLoop env n a0).gl.texBuffer (mainLoop env n a0).triangleBufferTexture =
          some (TexFormat.R32I, (mainLoop env n a0).triangleBuffer) ∧
        TexFormat.R32I.bytes = 4 ∧
        (mainLoop env n a0).gl.bufferData (mainLoop env n a0).triangleBuffer =
          mesh.triangleData.map Word.int ∧
        mesh.triangleData.length = 3 * mesh.nTrianglesLoaded ∧
        (mainLoop env n a0).gl.bufferSize (mainLoop env n a0).triangleBuffer =
          4 * mesh.triangleData.length ∧
        (mainLoop env n a0).gl.texelCount (mainLoop env n a0).triangleBufferTexture =
          3 * mesh.nTrianglesLoaded ∧
        (mainLoop env n a0).numTriangles = (mesh.nTrianglesLoaded : Int) ∧
        ∃ ctx, (frame env (mainLoop env n a0)).draws = (mainLoop env n a0).draws ++
          [⟨GL_TRIANGLES, 0,
            (((mainLoop env n a0).gl.texelCount (mainLoop env n a0).triangleBufferTexture :
              Nat) : Int), ctx⟩] := by
  obtain ⟨a0, mesh, hinit, hload, hlp, hlt, hnum, -, -, -, -, t1, t2, s1, d1, s2, d2, -⟩ :=
    init_spec env
  refine ⟨a0, mesh, hinit, hload, fun n => ?_⟩
  obtain ⟨k1, -, -, k4, k5, k6, k7, k8, k9, k10, -⟩ := mainLoop_keeps env n a0
  have c1 : (mainLoop env n a0).gl.texelCount (mainLoop env n a0).positionBufferTexture =
      mesh.nPositionsLoaded := by
    unfold GLState.texelCount
    rw [k8, k9, k6, t1]
    simp only [s1, TexFormat.bytes]
    omega
  have c2 : (mainLoop env n a0).gl.texelCount (mainLoop env n a0).triangleBufferTexture =
      3 * mesh.nTrianglesLoaded := by
    unfold GLState.texelCount
    rw [k8, k9, k7, t2]
    simp only [s2, TexFormat.bytes]
    omega
  have hcount : (3 : Int) * (mainLoop env n a0).numTriangles =
      (((mainLoop env n a0).gl.texelCount (mainLoop env n a0).triangleBufferTexture : Nat) :
        Int) := by
    rw [c2, k1, hnum]
    push_cast
    rfl
  have hd := frame_draws env (mainLoop env n a0)
  rw [hcount] at hd
  refine ⟨?_, rfl, ?_, hlp, ?_, c1, ?_, rfl, ?_, hlt, ?_, c2, k1.trans hnum, _, hd⟩
  · rw [k8, k6, k4]; exact t1
  · rw [k10, k4]; exact d1
  · rw [k9, k4, s1, hlp]; omega
  · rw [k8, k7, k5]; exact t2
  · rw [k10, k5]; exact d2
  · rw [k9, k5, s2, hlt]; omega

end ProgramClaims2

section Orbit

variable {F M : Type} (env : Env F M)

theorem createShader_matrices (src : List Char) (ty : ShaderType) (a : App F M) :
    (createShader env src ty a).2.orbit = a.orbit ∧
      (createShader env src ty a).2.trans = a.trans := by
  unfold createShader
  simp only
  split <;> exact ⟨rfl, rfl⟩

theorem readShader_matrices (name : String) (file : Option (List Char)) (a : App F M) :
    (readShader name file a).2.orbit = a.orbit ∧ (readShader name file a).2.trans = a.trans := by
  cases file <;> exact ⟨rfl, rfl⟩

theorem programSetup_matrices (a : App F M) :
    (programSetup env a).orbit = a.orbit ∧ (programSetup env a).trans = a.trans := by
  unfold programSetup
  simp only
  obtain ⟨c1, c2⟩ := createShader_matrices env
    (readShader "FragmentShader.glsl" env.fragmentShaderFile
      (readShader "VertexShader.glsl" env.vertexShaderFile { a with gl := a.gl.glEnable }).2).1
    ShaderType.GL_FRAGMENT_SHADER
    (createShader env
      (readShader "VertexShader.glsl" env.vertexShaderFile { a with gl := a.gl.glEnable }).1
      ShaderType.GL_VERTEX_SHADER
      (readShader "FragmentShader.glsl" env.fragmentShaderFile
        (readShader "VertexShader.glsl" env.vertexShaderFile
          { a with gl := a.gl.glEnable }).2).2).2
  obtain ⟨d1, d2⟩ := createShader_matrices env
    (readShader "VertexShader.glsl" env.vertexShaderFile { a with gl := a.gl.glEnable }).1
    ShaderType.GL_VERTEX_SHADER
    (readShader "FragmentShader.glsl" env.fragmentShaderFile
      (readShader "VertexShader.glsl" env.vertexShaderFile { a with gl := a.gl.glEnable }).2).2
  obtain ⟨e1, e2⟩ := readShader_matrices "FragmentShader.glsl" env.fragmentShaderFile
    (readShader "VertexShader.glsl" env.vertexShaderFile { a with gl := a.gl.glEnable }).2
  obtain ⟨f1, f2⟩ := readShader_matrices "VertexShader.glsl" env.vertexShaderFile
    { a with gl := a.gl.glEnable }
  exact ⟨by rw [c1, d1, e1, f1], by rw [c2, d2, e2, f2]⟩

theorem initBuffers_matrices (a b : App F M) (h : initBuffers env a = some b) :
    b.orbit = a.orbit ∧ b.trans = a.trans ∧ b.uniMVP = a.uniMVP := by
  unfold initBuffers at h
  simp only at h
  split at h
  · simp at h
  · simp only [Option.some.injEq] at h
    subst h
    exact ⟨rfl, rfl, rfl⟩

/-- The angle and the constant matrices `init` leaves behind. -/
theorem init_matrices (a0 : App F M) (h : init env (App.initial env) = some a0) :
    a0.orbit = env.glm.lit "0" ∧
      a0.proj = env.glm.perspective (env.glm.lit "45.0f")
        (env.glm.div (env.glm.lit "800.0f") (env.glm.lit "600.0f"))
        (env.glm.lit "0.1f") (env.glm.lit "1000.0f") ∧
      a0.trans = env.glm.translate env.glm.mat4
        (env.glm.lit "0.0", env.glm.lit "0.0", env.glm.lit "0.0") := by
  rw [init_eq] at h
  cases hb : initBuffers env (programSetup env (App.initial env)) with
  | none => rw [hb] at h; simp at h
  | some b =>
    rw [hb] at h
    simp only [Option.some.injEq] at h
    obtain ⟨b1, b2, -⟩ := initBuffers_matrices env _ b hb
    obtain ⟨p1, p2⟩ := programSetup_matrices env (App.initial env)
    subst h
    refine ⟨?_, rfl, ?_⟩
    · show b.orbit = _
      rw [b1, p1]
      rfl
    · show env.glm.translate b.trans _ = _
      rw [b2, p2]
      rfl

theorem frame_orbit (a : App F M) :
    (frame env a).orbit = env.glm.add a.orbit (env.glm.lit "0.00025f") ∧
      (frame env a).MVP = (update env a).MVP ∧
      (update env a).MVP =
        env.glm.matMul
          (env.glm.matMul a.proj
            (viewAt env.glm (env.glm.add a.orbit (env.glm.lit "0.00025f")))) a.trans :=
  ⟨rfl, rfl, rfl⟩

theorem mainLoop_orbit (n : Nat) (a : App F M) (h : a.orbit = env.glm.lit "0") :
    (mainLoop env n a).orbit = orbitAfter env.glm n ∧ (mainLoop env n a).proj = a.proj ∧
      (mainLoop env n a).trans = a.trans := by
  induction n with
  | zero => exact ⟨h, rfl, rfl⟩
  | succ n ih =>
    obtain ⟨i1, i2, i3⟩ := ih
    obtain ⟨-, -, -, -, -, -, -, g8, g9, -⟩ := frame_globals env (mainLoop env n a)
    rw [mainLoop_succ_frame]
    refine ⟨?_, g8.trans i2, g9.trans i3⟩
    rw [(frame_orbit env (mainLoop env n a)).1, i1]
    rfl

end Orbit

/-- C10 (amended): in frame N (counted from 1) `update` computes, stores in
`MVP` and passes to `glUniformMatrix4fv` the matrix proj · view(angle_N) · model,
where angle_N is the result of N successive additions of `0.00025f` to 0 in the
float arithmetic of the platform, view(angle) is the look-at matrix from
(sin(angle)·30.5, 0, −cos(angle)·30.5) towards the origin with up (0,1,0), and
proj and model are the constant matrices set by `init`; the matrix depends on
nothing but the number of frames elapsed. -/
theorem update_uploads_orbit_view {F M : Type} (env : Env F M) :
    ∃ a0 : App F M, init env (App.initial env) = some a0 ∧
      a0.proj = env.glm.perspective (env.glm.lit "45.0f")
        (env.glm.div (env.glm.lit "800.0f") (env.glm.lit "600.0f"))
        (env.glm.lit "0.1f") (env.glm.lit "1000.0f") ∧
      a0.trans = env.glm.translate env.glm.mat4
        (env.glm.lit "0.0", env.glm.lit "0.0", env.glm.lit "0.0") ∧
      ∀ n,
        (update env (mainLoop env n a0)).orbit = orbitAfter env.glm (n + 1) ∧
        (update env (mainLoop env n a0)).MVP =
          env.glm.matMul
            (env.glm.matMul a0.proj (viewAt env.glm (orbitAfter env.glm (n + 1)))) a0.trans ∧
        (update env (mainLoop env n a0)).gl =
          (mainLoop env n a0).gl.glUniformMatrix4fv a0.uniMVP
            (env.glm.matMul
              (env.glm.matMul a0.proj (viewAt env.glm (orbitAfter env.glm (n + 1))))
              a0.trans) := by
  obtain ⟨a0, -, hinit, -⟩ := init_spec env
  obtain ⟨m1, m2, m3⟩ := init_matrices env a0 hinit
  refine ⟨a0, hinit, m2, m3, fun n => ?_⟩
  obtain ⟨o1, o2, o3⟩ := mainLoop_orbit env n a0 m1
  obtain ⟨-, -, k3, -⟩ := mainLoop_keeps env n a0
  have hmvp : (update env (mainLoop env n a0)).MVP =
      env.glm.matMul
        (env.glm.matMul a0.proj (viewAt env.glm (orbitAfter env.glm (n + 1)))) a0.trans := by
    rw [(frame_orbit env (mainLoop env n a0)).2.2, o1, o2, o3]
    rfl
  refine ⟨?_, hmvp, ?_⟩
  · show env.glm.add (mainLoop env n a0).orbit (env.glm.lit "0.00025f") = _
    rw [o1]
    rfl
  · rw [update_gl, hmvp, k3]

set_option maxRecDepth 100000 in
/-- C10 as stated fails in single precision: after 6 frames the angle is
51539612 · 2^-35, which is neither 6 times the increment (51539610 · 2^-35, not
a binary32 value), nor that product rounded to binary32 (51539608 · 2^-35), nor
6 × 0.00025 = 0.0015. The increment of the run is the binary32 value nearest to
0.00025. -/
theorem orbit_closed_form_counterexample :
    (main binary32Env 6).map (fun a => a.orbit) = some (F32Term.val (51539612 * 2 ^ 114)) ∧
    binary32Env.glm.lit "0.00025f" = F32Term.val orbitStep32 ∧
    roundBinary32 orbitStep32 = orbitStep32 ∧
    2 ^ 149 ≤ 4000 * orbitStep32 ∧ (4000 * orbitStep32 - 2 ^ 149) * 2 ≤ 4000 * 2 ^ 114 ∧
    51539612 * 2 ^ 114 ≠ 6 * orbitStep32 ∧
    roundBinary32 (6 * orbitStep32) = 51539608 * 2 ^ 114 ∧
    2000 * (51539612 * 2 ^ 114) ≠ 3 * 2 ^ 149 := by
  decide

end Buffers
